import Mathlib

/-!
Verification development for the org-stack user self-provisioning service
(`src/registration/app.py`).

Strings are embedded as `List Char` (one entry per Python character).
Pure helpers of the source become Lean functions; the effectful routes
(`register_submit`, `approve_request`, `reject_request`,
`create_lldap_user`) become functions from explicit state plus injected
outcomes of the external calls (subprocess results, LDAP lookup results,
SMTP configuration) to the successor state together with the list of
observable side effects (directory calls, console lines, SMTP sends,
file appends) they perform.

Python's character classification (`str.isalpha`, `str.islower`,
`str.isalnum`, `str.isspace`, `str.lower`) consults the Unicode
database; the embedding reproduces it exactly for all code points up to
U+00FF (ASCII and Latin-1), which covers every character this
development instantiates.
-/

namespace Reg

/-- A Python string, one list entry per character. -/
abbrev PyStr := List Char

/-- `needle` occurs as a contiguous substring of the second argument. -/
def occursIn (needle : PyStr) : PyStr → Bool
  | [] => needle.isEmpty
  | c :: rest => needle.isPrefixOf (c :: rest) || occursIn needle rest

/-- The double-quote character (written numerically). -/
def quoteChar : Char := Char.ofNat 34

/-- The backslash character. -/
def bslash : Char := Char.ofNat 92

/-- The newline character. -/
def nlChar : Char := Char.ofNat 10

/-- Python `str.isspace` on one character, faithful for code points up to
U+00FF: tab through carriage return, the file/group/record/unit
separators, space, NEL and no-break space. -/
def pyIsSpace (c : Char) : Bool :=
  let n := c.toNat
  (9 ≤ n && n ≤ 13) || (28 ≤ n && n ≤ 31) || n = 32 || n = 133 || n = 160

/-- Python `str.strip()`: drop whitespace from both ends. -/
def pyStrip (l : PyStr) : PyStr :=
  ((l.dropWhile pyIsSpace).reverse.dropWhile pyIsSpace).reverse

/-- Python `str.lower` on one character, faithful for code points up to
U+00FF: ASCII uppercase and Latin-1 uppercase letters move down by 32,
everything else is unchanged. -/
def pyLowerChar (c : Char) : Char :=
  let n := c.toNat
  if 65 ≤ n && n ≤ 90 then Char.ofNat (n + 32)
  else if (192 ≤ n && n ≤ 222) && n ≠ 215 then Char.ofNat (n + 32)
  else c

/-- Python single-character `str.isalpha`, faithful for code points up to
U+00FF (ASCII letters, the Latin-1 letters, ordinal indicators and micro
sign). -/
def pyIsAlpha (c : Char) : Bool :=
  let n := c.toNat
  (65 ≤ n && n ≤ 90) || (97 ≤ n && n ≤ 122) ||
  n = 170 || n = 181 || n = 186 ||
  (192 ≤ n && n ≤ 214) || (216 ≤ n && n ≤ 246) || (248 ≤ n && n ≤ 255)

/-- Python single-character numeric test used by `str.isalnum`
(`isdecimal`/`isdigit`/`isnumeric`), faithful for code points up to
U+00FF: ASCII digits, superscripts one to three and the vulgar
fractions. -/
def pyIsNum (c : Char) : Bool :=
  let n := c.toNat
  (48 ≤ n && n ≤ 57) || n = 178 || n = 179 || n = 185 ||
  n = 188 || n = 189 || n = 190

/-- Python single-character alphanumeric test. -/
def pyIsAlnumChar (c : Char) : Bool := pyIsAlpha c || pyIsNum c

/-- The Unicode `Cased` property as Python uses it, faithful for code
points up to U+00FF. -/
def pyIsCased (c : Char) : Bool :=
  let n := c.toNat
  (65 ≤ n && n ≤ 90) || (97 ≤ n && n ≤ 122) ||
  n = 170 || n = 181 || n = 186 ||
  (192 ≤ n && n ≤ 214) || (216 ≤ n && n ≤ 246) || (248 ≤ n && n ≤ 255)

/-- The Unicode `Lowercase` property as Python uses it, faithful for code
points up to U+00FF. -/
def pyIsLowerChar (c : Char) : Bool :=
  let n := c.toNat
  (97 ≤ n && n ≤ 122) || n = 170 || n = 181 || n = 186 || n = 223 ||
  (224 ≤ n && n ≤ 246) || (248 ≤ n && n ≤ 255)

/-- Python `str.isalnum` on a whole string: non-empty and every character
alphanumeric. -/
def pyStrIsAlnum (l : PyStr) : Bool :=
  !l.isEmpty && l.all pyIsAlnumChar

/-- Python `str.islower` on a whole string: at least one cased character
and every cased character lowercase. -/
def pyStrIsLower (l : PyStr) : Bool :=
  l.any pyIsCased && l.all (fun c => !pyIsCased c || pyIsLowerChar c)

/-! ## LDAP escaping (`escape_ldap_dn`, app.py lines 103-114) -/

/-- One pass of Python `str.replace(t, r)` where `t` is a single
character: every occurrence of `t` becomes the list `r`. -/
def replaceChar (t : Char) (r : PyStr) : PyStr → PyStr
  | [] => []
  | c :: cs => (if c = t then r else [c]) ++ replaceChar t r cs

/-- The nine sequential replacements of `escape_ldap_dn`: backslash
first, then the eight metacharacters in the source's dictionary order. -/
def escSeq (s : PyStr) : PyStr :=
  replaceChar '=' [bslash, '=']
    (replaceChar quoteChar [bslash, quoteChar]
      (replaceChar ';' [bslash, ';']
        (replaceChar '>' [bslash, '>']
          (replaceChar '<' [bslash, '<']
            (replaceChar '+' [bslash, '+']
              (replaceChar '#' [bslash, '#']
                (replaceChar ',' [bslash, ',']
                  (replaceChar bslash [bslash, bslash] s))))))))

/-- `escape_ldap_dn` from app.py: the nine replacements, then a backslash
prepended when the result starts with a space, then — when the result
ends with a space — the final character is dropped and an escaped space
appended. -/
def escape_ldap_dn (s : PyStr) : PyStr :=
  let v := escSeq s
  let v := if v.head? = some ' ' then bslash :: v else v
  let v := if v.getLast? = some ' ' then v.dropLast ++ [bslash, ' '] else v
  v

/-! ## Validators (app.py lines 116-139) -/

/-- `validate_username_strict` from app.py: length 2-64, the string with
underscores removed is alphanumeric, the whole string is lowercase, and
the first character is alphabetic — all via Python's Unicode-aware
predicates. -/
def validate_username_strict (u : PyStr) : Bool :=
  if u.isEmpty || u.length < 2 || 64 < u.length then false
  else if !pyStrIsAlnum (u.filter (fun c => c ≠ '_')) || !pyStrIsLower u then false
  else if !(match u.head? with | some c => pyIsAlpha c | none => false) then false
  else true

/-- `validate_email_basic` from app.py: contains one `@` splitting it
into non-empty local and domain parts, the domain contains a dot, and
the total length is at most 255. -/
def validate_email_basic (email : PyStr) : Bool :=
  if email.isEmpty || !email.contains '@' then false
  else if 255 < email.length then false
  else
    match email.splitOn '@' with
    | [l, d] => !l.isEmpty && !d.isEmpty && d.contains '.'
    | _ => false

/-! ## The directory's DN value grammar (spec-modelled)

The round-trip claim compares the escaped form against "the directory's
own DN grammar", which is not part of src/. -/

/-- The seven characters that may never appear raw in a DN attribute
value. -/
def rawForbidden (c : Char) : Bool :=
  c = quoteChar || c = '+' || c = ',' || c = ';' || c = '<' || c = '>' || c = bslash

/-- The characters a backslash may escape (hex pairs omitted). -/
def escOk (c : Char) : Bool :=
  c = quoteChar || c = '+' || c = ',' || c = ';' || c = '<' || c = '>' ||
  c = bslash || c = ' ' || c = '#' || c = '='

/-- Modelled from the spec: the token reader of the directory's DN value
grammar (RFC 4514 as named by the source, restricted to the spec's
metacharacter set, hex pairs omitted). Each token records whether it was
written as a backslash pair (`true`) or raw (`false`); a raw structural
metacharacter or a dangling backslash is a syntax error. -/
def dnTokens : PyStr → Option (List (Bool × Char))
  | [] => some []
  | c :: rest =>
    if c = bslash then
      match rest with
      | [] => none
      | d :: rest2 =>
        if escOk d then (dnTokens rest2).map (fun ts => (true, d) :: ts) else none
    else
      if rawForbidden c then none
      else (dnTokens rest).map (fun ts => (false, c) :: ts)

/-- Modelled from the spec: parse a DN attribute value back to the
literal string it denotes. Fails when tokenisation fails, when the value
begins with a raw space or raw `#`, or when it ends with a raw space. -/
def dnParse (l : PyStr) : Option PyStr :=
  match dnTokens l with
  | none => none
  | some [] => some []
  | some (t0 :: ts) =>
    let tn := (t0 :: ts).getLastD t0
    if (t0.1 = false ∧ (t0.2 = ' ' ∨ t0.2 = '#')) ∨ (tn.1 = false ∧ tn.2 = ' ')
    then none
    else some ((t0 :: ts).map Prod.snd)

/-- The nine characters `escape_ldap_dn` rewrites. -/
def isSpecial (c : Char) : Bool :=
  c = bslash || c = ',' || c = '#' || c = '+' || c = '<' || c = '>' ||
  c = ';' || c = quoteChar || c = '='

/-- Per-character view of the nine replacement passes. -/
def escChar (c : Char) : PyStr :=
  if isSpecial c then [bslash, c] else [c]

/-- `escSeq` as a single left-to-right pass. -/
def escAll : PyStr → PyStr
  | [] => []
  | c :: cs => escChar c ++ escAll cs

/-! ## lldap integration (`create_lldap_user`, app.py lines 153-228)

The subprocess calls are injected as outcomes: each of the three
external binaries either completed with a return code and stderr, timed
out, or raised.  The generated password (produced in the source by
`secrets.choice`) is injected as a parameter standing for the drawn
random string. -/

/-- Outcome of one `subprocess.run` call. -/
inductive ProcResult where
  | completed (returncode : Int) (stderr : PyStr)
  | timedOut
  | raised (msg : PyStr)
deriving DecidableEq

/-- One mutating or deleting LDAP operation issued by the service. -/
inductive LdapCall where
  | add (dn : PyStr) (ldif : PyStr)
  | setPassword (dn : PyStr) (pw : PyStr)
  | delete (dn : PyStr)
deriving DecidableEq

/-- Injected outcomes of the three subprocess invocations
(`ldapadd`, `ldappasswd`, `ldapdelete`) a provisioning call can make. -/
structure LdapEnv where
  addResult : ProcResult
  passwdResult : ProcResult
  deleteResult : ProcResult
deriving DecidableEq

/-- Deployment configuration read from the environment. -/
structure LdapConfig where
  baseDN : PyStr
  adminUser : PyStr
deriving DecidableEq

/-- What `create_lldap_user` returns and does: the `(success, password,
error)` triple of the source plus the directory calls issued and the
console lines printed. -/
structure ProvisionOutcome where
  success : Bool
  password : PyStr
  error : PyStr
  calls : List LdapCall
  console : List PyStr
deriving DecidableEq

/-- `f'uid={escape_ldap_dn(username)},ou=people,{LLDAP_BASE_DN}'`. -/
def userDN (cfg : LdapConfig) (username : PyStr) : PyStr :=
  ("uid=").data ++ escape_ldap_dn username ++ (",ou=people,").data ++ cfg.baseDN

/-- The LDIF document `create_lldap_user` pipes into `ldapadd`. -/
def ldifContent (cfg : LdapConfig) (username email first_name last_name : PyStr) : PyStr :=
  ("dn: ").data ++ userDN cfg username ++
  [nlChar] ++ ("objectClass: person").data ++
  [nlChar] ++ ("objectClass: inetOrgPerson").data ++
  [nlChar] ++ ("uid: ").data ++ escape_ldap_dn username ++
  [nlChar] ++ ("cn: ").data ++ escape_ldap_dn first_name ++ [' '] ++ escape_ldap_dn last_name ++
  [nlChar] ++ ("sn: ").data ++ escape_ldap_dn last_name ++
  [nlChar] ++ ("givenName: ").data ++ escape_ldap_dn first_name ++
  [nlChar] ++ ("mail: ").data ++ escape_ldap_dn email ++ [nlChar]

/-- `create_lldap_user` from app.py: re-validate the fields, build the
DN and LDIF, run `ldapadd`; on its success run `ldappasswd`, and only
when `ldappasswd` completes with a non-zero return code run the
compensating `ldapdelete` (whose own timeout or exception is caught by
the surrounding handlers and changes the reported error). -/
def create_lldap_user (cfg : LdapConfig) (username email first_name last_name : PyStr)
    (password : PyStr) (env : LdapEnv) : ProvisionOutcome :=
  if !validate_username_strict username then
    ⟨false, [], ("Invalid username format").data, [],
     [("[SECURITY] Invalid username: ").data ++ username]⟩
  else if !validate_email_basic email then
    ⟨false, [], ("Invalid email format").data, [], []⟩
  else if first_name.isEmpty || 100 < first_name.length
      || last_name.isEmpty || 100 < last_name.length then
    ⟨false, [], ("Invalid name fields").data, [], []⟩
  else
    let dn := userDN cfg username
    let ldif := ldifContent cfg username email first_name last_name
    match env.addResult with
    | .timedOut =>
      ⟨false, [], ("LDAP operation timed out").data, [.add dn ldif], []⟩
    | .raised m =>
      ⟨false, [], ("Failed to create user: ").data ++ m, [.add dn ldif], []⟩
    | .completed rc stderr =>
      if rc ≠ 0 then
        ⟨false, [], ("Failed to create user: ").data ++ stderr, [.add dn ldif],
         [("[ERROR] ldapadd failed: ").data ++ stderr]⟩
      else
        let createdLine := ("[SUCCESS] User ").data ++ username ++ (" created in lldap").data
        match env.passwdResult with
        | .timedOut =>
          ⟨false, [], ("LDAP operation timed out").data,
           [.add dn ldif, .setPassword dn password], [createdLine]⟩
        | .raised m =>
          ⟨false, [], ("Failed to set password: ").data ++ m,
           [.add dn ldif, .setPassword dn password], [createdLine]⟩
        | .completed rc2 stderr2 =>
          if rc2 ≠ 0 then
            let failLine := ("[ERROR] ldappasswd failed: ").data ++ stderr2
            match env.deleteResult with
            | .timedOut =>
              ⟨false, [], ("LDAP operation timed out").data,
               [.add dn ldif, .setPassword dn password, .delete dn], [createdLine, failLine]⟩
            | .raised m =>
              ⟨false, [], ("Failed to set password: ").data ++ m,
               [.add dn ldif, .setPassword dn password, .delete dn], [createdLine, failLine]⟩
            | .completed _ _ =>
              ⟨false, [], ("Failed to set password: ").data ++ stderr2,
               [.add dn ldif, .setPassword dn password, .delete dn], [createdLine, failLine]⟩
          else
            ⟨true, password, [], [.add dn ldif, .setPassword dn password],
             [createdLine,
              ("[SUCCESS] Password set for user ").data ++ username]⟩

/-- The service attempted an `ldapdelete` during this provisioning
call. -/
def hasDelete (calls : List LdapCall) : Bool :=
  calls.any (fun c => match c with | .delete _ => true | _ => false)

/-! ## Email notifications (app.py lines 276-362) -/

/-- SMTP configuration and behaviour of the transport, injected. -/
structure EmailConfig where
  smtpEnabled : Bool
  sendRaises : Bool
  raiseMsg : PyStr
deriving DecidableEq

/-- Observable side effects of the routes, in program order. -/
inductive SinkEvent where
  | smtpSend (toAddr subject body : PyStr)
  | fileAppend (path : PyStr) (content : PyStr)
  | consoleLine (line : PyStr)
deriving DecidableEq

/-- The path `EMAIL_LOG_FILE`. -/
def emailLogFile : PyStr := ("/data/emails.log").data

/-- The record `log_email_to_file` appends: banner, timestamp, recipient,
subject, body, banner. -/
def emailLogRecord (ts toAddr subject body : PyStr) : PyStr :=
  [nlChar] ++ List.replicate 80 '=' ++ [nlChar] ++
  ("Timestamp: ").data ++ ts ++ [nlChar] ++
  ("To: ").data ++ toAddr ++ [nlChar] ++
  ("Subject: ").data ++ subject ++ [nlChar] ++
  ("Body:").data ++ [nlChar] ++ body ++ [nlChar] ++
  List.replicate 80 '=' ++ [nlChar]

/-- `send_email` from app.py, returning the source's boolean and the
side effects: with SMTP disabled it appends to the email log file; with
SMTP enabled it sends, falling back to the log file when the transport
raises. -/
def send_email (cfg : EmailConfig) (ts toAddr subject body : PyStr) : Bool × List SinkEvent :=
  if !cfg.smtpEnabled then
    (true, [.fileAppend emailLogFile (emailLogRecord ts toAddr subject body),
            .consoleLine (("[EMAIL] Logged to ").data ++ emailLogFile ++ (": ").data
              ++ toAddr ++ (" - ").data ++ subject)])
  else if cfg.sendRaises then
    (false, [.consoleLine (("[ERROR] Failed to send email to ").data ++ toAddr
              ++ (": ").data ++ cfg.raiseMsg),
             .fileAppend emailLogFile (emailLogRecord ts toAddr subject body)])
  else
    (true, [.smtpSend toAddr subject body,
            .consoleLine (("[EMAIL] Sent to ").data ++ toAddr ++ (": ").data ++ subject)])

/-- Body of the approval notification, credential included. -/
def approvedBody (username password : PyStr) : PyStr :=
  [nlChar] ++ ("Your account request has been approved!").data ++
  [nlChar, nlChar] ++ ("Username: ").data ++ username ++
  [nlChar] ++ ("Temporary Password: ").data ++ password ++
  [nlChar, nlChar] ++
  ("Please login and change your password immediately after your first login.").data ++
  [nlChar] ++
  ("For security, this password is randomly generated and should be changed.").data ++
  [nlChar]

/-- Body of the rejection notification (the source quotes the username
with apostrophes, written numerically here). -/
def rejectedBody (username reason : PyStr) : PyStr :=
  [nlChar] ++ ("Your account request for username ").data ++
  [Char.ofNat 39] ++ username ++ [Char.ofNat 39] ++
  (" has been rejected.").data ++ [nlChar, nlChar] ++
  ("Reason: ").data ++ reason ++ [nlChar, nlChar] ++
  ("If you believe this was an error, please contact the administrator.").data ++ [nlChar]

/-- Body of the new-request notification to the administrator. -/
def adminNewRequestBody (username email reason : PyStr) : PyStr :=
  [nlChar] ++ ("A new user has requested an account:").data ++
  [nlChar, nlChar] ++ ("Username: ").data ++ username ++
  [nlChar] ++ ("Email: ").data ++ email ++
  [nlChar] ++ ("Reason: ").data ++ reason ++
  [nlChar, nlChar] ++
  ("Please review and approve/reject at the admin dashboard.").data ++ [nlChar]

/-- `notify_user_approved`. -/
def notify_user_approved (cfg : EmailConfig) (ts email username password : PyStr) :
    Bool × List SinkEvent :=
  send_email cfg ts email (("Account approved").data) (approvedBody username password)

/-- `notify_user_rejected`. -/
def notify_user_rejected (cfg : EmailConfig) (ts email username reason : PyStr) :
    Bool × List SinkEvent :=
  send_email cfg ts email (("Account request rejected").data) (rejectedBody username reason)

/-- `notify_admin_new_request`. -/
def notify_admin_new_request (cfg : EmailConfig) (ts adminEmail username email reason : PyStr) :
    Bool × List SinkEvent :=
  send_email cfg ts adminEmail
    (("New registration request: ").data ++ username)
    (adminNewRequestBody username email reason)

/-! ## The durable store (app.py lines 61-97)

`registration_requests` and `audit_log` become lists in insertion
(rowid) order; `id INTEGER PRIMARY KEY AUTOINCREMENT` becomes `nextId`.
`CURRENT_TIMESTAMP` defaults are injected as parameters. -/

/-- One row of `registration_requests`. -/
structure RegRow where
  id : Nat
  username : PyStr
  email : PyStr
  first_name : PyStr
  last_name : PyStr
  reason : PyStr
  ip_address : PyStr
  user_agent : PyStr
  created_at : Nat
deriving DecidableEq

/-- The `action` column of `audit_log`. -/
inductive AuditAction where
  | approved
  | rejected
deriving DecidableEq

/-- One row of `audit_log` (`rejection_reason` is NULL on approvals). -/
structure AuditRow where
  username : PyStr
  email : PyStr
  first_name : PyStr
  last_name : PyStr
  reason : PyStr
  action : AuditAction
  performed_by : PyStr
  rejection_reason : Option PyStr
  ip_address : PyStr
  user_agent : PyStr
  created_at : Nat
deriving DecidableEq

/-- The whole durable store. -/
structure Store where
  pending : List RegRow
  nextId : Nat
  audit : List AuditRow
deriving DecidableEq

/-- The freshly initialised database. -/
def emptyStore : Store := ⟨[], 1, []⟩

/-- `SELECT * FROM registration_requests WHERE id = ?` + `fetchone`. -/
def findReq (s : Store) (id : Nat) : Option RegRow :=
  s.pending.find? (fun r => r.id = id)

/-! ## Routes (app.py lines 376-567) -/

/-- The inline-error versus redirect outcomes of the registration form. -/
inductive AdmitOutcome where
  | formError (msg : PyStr)
  | redirectSuccess
deriving DecidableEq

/-- Raw form fields plus request metadata of one submission. -/
structure Candidate where
  username : PyStr
  email : PyStr
  first_name : PyStr
  last_name : PyStr
  reason : PyStr
  ip : PyStr
  user_agent : PyStr
deriving DecidableEq

/-- Result of one `register_submit` call. -/
structure AdmitResult where
  store : Store
  outcome : AdmitOutcome
  events : List SinkEvent
deriving DecidableEq

/-- The inline message for a username validation failure. -/
def usernameRuleMsg : PyStr :=
  ("Username must be 2-64 characters, start with a letter, and contain only lowercase letters, numbers, and underscores").data

/-- The inline message for a pending-username collision. -/
def dupUsernameMsg (username : PyStr) : PyStr :=
  ("Username ").data ++ [quoteChar] ++ username ++ [quoteChar] ++
  (" already has a pending registration request").data

/-- The inline message for a pending-email collision. -/
def dupEmailMsg (email : PyStr) : PyStr :=
  ("Email ").data ++ [quoteChar] ++ email ++ [quoteChar] ++
  (" already has a pending registration request").data

/-- `register_submit` from app.py: strip and lowercase, require all
fields, validate username/email/names, consult the injected
`check_ldap_user_exists` outcome, then in one transaction look for a
pending row with the same username or email (reporting whichever field
the first matching row collides on) and otherwise insert and notify the
administrator. -/
def register_submit (store : Store) (cand : Candidate)
    (ldapExists : Bool × PyStr) (adminEmail : PyStr) (cfg : EmailConfig)
    (ts : PyStr) (createdAt : Nat) : AdmitResult :=
  let username := (pyStrip cand.username).map pyLowerChar
  let email := (pyStrip cand.email).map pyLowerChar
  let first_name := pyStrip cand.first_name
  let last_name := pyStrip cand.last_name
  let reason := pyStrip cand.reason
  if username.isEmpty || email.isEmpty || first_name.isEmpty || last_name.isEmpty then
    ⟨store, .formError (("All fields except reason are required").data), []⟩
  else if !validate_username_strict username then
    ⟨store, .formError usernameRuleMsg, []⟩
  else if !validate_email_basic email then
    ⟨store, .formError (("Invalid email address").data), []⟩
  else if 100 < first_name.length || 100 < last_name.length then
    ⟨store, .formError (("Names must be less than 100 characters").data), []⟩
  else if ldapExists.1 then
    ⟨store, .formError ldapExists.2, []⟩
  else
    match store.pending.find? (fun r => r.username = username || r.email = email) with
    | some row =>
      if row.username = username then
        ⟨store, .formError (dupUsernameMsg username), []⟩
      else
        ⟨store, .formError (dupEmailMsg email), []⟩
    | none =>
      let row : RegRow :=
        ⟨store.nextId, username, email, first_name, last_name, reason,
         cand.ip, cand.user_agent, createdAt⟩
      let store' : Store := ⟨store.pending ++ [row], store.nextId + 1, store.audit⟩
      let ev :=
        if adminEmail.isEmpty then []
        else (notify_admin_new_request cfg ts adminEmail username email reason).2
      ⟨store', .redirectSuccess, ev⟩

/-- HTTP result of the admin endpoints. -/
inductive Response where
  | redirect (url : PyStr) (code : Nat)
  | httpError (code : Nat) (detail : PyStr)
deriving DecidableEq

/-- Result of one `approve_request` or `reject_request` call. -/
structure AdminResult where
  store : Store
  response : Response
  events : List SinkEvent
  dirCalls : List LdapCall
deriving DecidableEq

/-- `approve_request` from app.py: 404 when the id has no pending row;
otherwise run `create_lldap_user` on the row's fields and — only on its
success — append the APPROVED audit row, delete the pending row, and
notify the user (credential included). On provisioning failure the
error is printed and the same `/admin` redirect is returned. -/
def approve_request (store : Store) (request_id : Nat) (admin_user : PyStr)
    (lcfg : LdapConfig) (password : PyStr) (env : LdapEnv)
    (cfg : EmailConfig) (ts : PyStr) : AdminResult :=
  match findReq store request_id with
  | none => ⟨store, .httpError 404 (("Request not found").data), [], []⟩
  | some req =>
    let prov := create_lldap_user lcfg req.username req.email req.first_name req.last_name
      password env
    if prov.success then
      let entry : AuditRow :=
        ⟨req.username, req.email, req.first_name, req.last_name, req.reason,
         .approved, admin_user, none, req.ip_address, req.user_agent, req.created_at⟩
      let store' : Store :=
        ⟨store.pending.filter (fun r => r.id ≠ request_id), store.nextId,
         store.audit ++ [entry]⟩
      let ev := (notify_user_approved cfg ts req.email req.username prov.password).2
      ⟨store', .redirect (("/admin").data) 303,
       prov.console.map .consoleLine ++
         [.consoleLine (("[SUCCESS] User ").data ++ req.username ++
            (" approved and created in lldap by ").data ++ admin_user)] ++ ev,
       prov.calls⟩
    else
      ⟨store, .redirect (("/admin").data) 303,
       prov.console.map .consoleLine ++
         [.consoleLine (("[ERROR] Failed to create user ").data ++ req.username ++
            (": ").data ++ prov.error)],
       prov.calls⟩

/-- The default rejection reason of the `reason` form field. -/
def defaultRejectReason : PyStr := ("No reason provided").data

/-- `reject_request` from app.py: 404 when the id has no pending row;
otherwise append the REJECTED audit row with the supplied reason (the
form default when the caller sent none), delete the pending row and
notify the user. -/
def reject_request (store : Store) (request_id : Nat) (admin_user : PyStr)
    (reasonForm : Option PyStr) (cfg : EmailConfig) (ts : PyStr) : AdminResult :=
  let reason := reasonForm.getD defaultRejectReason
  match findReq store request_id with
  | none => ⟨store, .httpError 404 (("Request not found").data), [], []⟩
  | some req =>
    let entry : AuditRow :=
      ⟨req.username, req.email, req.first_name, req.last_name, req.reason,
       .rejected, admin_user, some reason, req.ip_address, req.user_agent, req.created_at⟩
    let store' : Store :=
      ⟨store.pending.filter (fun r => r.id ≠ request_id), store.nextId,
       store.audit ++ [entry]⟩
    let ev := (notify_user_rejected cfg ts req.email req.username reason).2
    ⟨store', .redirect (("/admin").data) 303,
     [.consoleLine (("[INFO] User ").data ++ req.username ++ (" rejected by ").data ++
        admin_user ++ (": ").data ++ reason)] ++ ev,
     []⟩

/-! ## Operation sequences (for the pending-uniqueness invariant) -/

/-- One workflow operation together with everything its run injects. -/
inductive Op where
  | admission (cand : Candidate) (ldapExists : Bool × PyStr) (adminEmail : PyStr)
      (cfg : EmailConfig) (ts : PyStr) (createdAt : Nat)
  | approve (id : Nat) (admin : PyStr) (lcfg : LdapConfig) (password : PyStr)
      (env : LdapEnv) (cfg : EmailConfig) (ts : PyStr)
  | reject (id : Nat) (admin : PyStr) (reasonForm : Option PyStr)
      (cfg : EmailConfig) (ts : PyStr)

/-- Effect of one operation on the store. -/
def applyOp (s : Store) : Op → Store
  | .admission cand le ae cfg ts ca => (register_submit s cand le ae cfg ts ca).store
  | .approve id a lcfg pw env cfg ts => (approve_request s id a lcfg pw env cfg ts).store
  | .reject id a r cfg ts => (reject_request s id a r cfg ts).store

/-- Run a sequence of operations from the freshly initialised store. -/
def runOps (ops : List Op) : Store :=
  ops.foldl applyOp emptyStore

/-- At most one pending request per username and at most one per email. -/
def PendingDistinct (s : Store) : Prop :=
  s.pending.Pairwise (fun a b => a.username ≠ b.username ∧ a.email ≠ b.email)

/-! ## Observational helpers used by the theorems -/

/-- The console lines among a list of side effects. -/
def consoleOf (evs : List SinkEvent) : List PyStr :=
  evs.filterMap (fun e => match e with | .consoleLine l => some l | _ => none)

/-- The durable (non-console) side effects: SMTP sends and file
appends. -/
def persistentEvents (evs : List SinkEvent) : List SinkEvent :=
  evs.filter (fun e => match e with | .consoleLine _ => false | _ => true)

/-- The token list an escaped string should produce: one token per input
character, escaped exactly when the character is a metacharacter. -/
def tokOf (l : PyStr) : List (Bool × Char) :=
  l.map (fun c => (isSpecial c, c))

/-- Every metacharacter occurrence in the string is written as an
escaped pair. -/
def allSpecialsEscaped (v : PyStr) : Bool :=
  match dnTokens v with
  | none => false
  | some ts => ts.all (fun p => !isSpecial p.2 || p.1)

/-- The three LDAP search-filter metacharacters, which `escape_ldap_dn`
does not rewrite. -/
def isFilterMeta (c : Char) : Bool :=
  c = '(' || c = ')' || c = '*'

/-! ## Spec-side definitions used by refinement comparisons -/

/-- The username rule exactly as the claim words it: length in 2-64,
first character an alphabetic letter, every character a lowercase ASCII
letter, an ASCII digit, or an underscore. -/
def claimedUsernameRule (u : PyStr) : Bool :=
  (2 ≤ u.length && u.length ≤ 64) &&
  (match u.head? with | some c => pyIsAlpha c | none => false) &&
  u.all (fun c => (97 ≤ c.toNat && c.toNat ≤ 122) || (48 ≤ c.toNat && c.toNat ≤ 57) || c = '_')

/-- The uid search filter `check_ldap_user_exists` interpolates the
escaped username into: `f'(uid={escape_ldap_dn(username)})'`. -/
def uidSearchFilter (username : PyStr) : PyStr :=
  ("(uid=").data ++ escape_ldap_dn username ++ [')']

/-- The mail search filter of `check_ldap_user_exists`:
`f'(mail={escape_ldap_dn(email)})'`. -/
def mailSearchFilter (email : PyStr) : PyStr :=
  ("(mail=").data ++ escape_ldap_dn email ++ [')']

/-! ## Lemmas about the escape pass -/

lemma replaceChar_append (t : Char) (r : PyStr) (l₁ l₂ : PyStr) :
    replaceChar t r (l₁ ++ l₂) = replaceChar t r l₁ ++ replaceChar t r l₂ := by
  induction l₁ with
  | nil => rfl
  | cons c cs ih => simp [replaceChar, ih]

lemma escSeq_append (l₁ l₂ : PyStr) : escSeq (l₁ ++ l₂) = escSeq l₁ ++ escSeq l₂ := by
  simp [escSeq, replaceChar_append]

lemma replaceChar_singleton (t : Char) (r : PyStr) (c : Char) :
    replaceChar t r [c] = if c = t then r else [c] := by
  simp [replaceChar]

lemma escSeq_singleton (c : Char) : escSeq [c] = escChar c := by
  by_cases h1 : c = bslash
  · subst h1; decide
  by_cases h2 : c = ','
  · subst h2; decide
  by_cases h3 : c = '#'
  · subst h3; decide
  by_cases h4 : c = '+'
  · subst h4; decide
  by_cases h5 : c = '<'
  · subst h5; decide
  by_cases h6 : c = '>'
  · subst h6; decide
  by_cases h7 : c = ';'
  · subst h7; decide
  by_cases h8 : c = quoteChar
  · subst h8; decide
  by_cases h9 : c = '='
  · subst h9; decide
  simp [escSeq, replaceChar_singleton, escChar, isSpecial,
    h1, h2, h3, h4, h5, h6, h7, h8, h9]

lemma escAll_append (l₁ l₂ : PyStr) : escAll (l₁ ++ l₂) = escAll l₁ ++ escAll l₂ := by
  induction l₁ with
  | nil => rfl
  | cons c cs ih => simp [escAll, ih]

lemma escSeq_eq_escAll (l : PyStr) : escSeq l = escAll l := by
  induction l with
  | nil => rfl
  | cons c cs ih =>
    have hc : (c :: cs) = [c] ++ cs := rfl
    rw [hc, escSeq_append, escSeq_singleton, ih]
    rfl

lemma escChar_special {c : Char} (h : isSpecial c = true) : escChar c = [bslash, c] := by
  simp [escChar, h]

lemma escChar_raw {c : Char} (h : isSpecial c = false) : escChar c = [c] := by
  simp [escChar, h]

lemma space_not_special : isSpecial ' ' = false := by decide

lemma escAll_head_space (l : PyStr) :
    ((escAll l).head? = some ' ') ↔ (l.head? = some ' ') := by
  cases l with
  | nil => simp [escAll]
  | cons c cs =>
    have hs : escAll (c :: cs) = escChar c ++ escAll cs := rfl
    by_cases h : isSpecial c = true
    · rw [hs, escChar_special h]
      simp only [List.cons_append, List.head?_cons, List.head?]
      constructor
      · intro hh; exact absurd (Option.some.inj hh) (by decide)
      · intro hh
        have : c = ' ' := Option.some.inj hh
        rw [this] at h
        exact absurd h (by decide)
    · have h' : isSpecial c = false := by simpa using h
      rw [hs, escChar_raw h']
      simp

lemma escAll_getLast_concat (xs : PyStr) (x : Char) :
    (escAll (xs ++ [x])).getLast? = some x := by
  rw [escAll_append]
  by_cases h : isSpecial x = true
  · rw [show escAll [x] = escChar x ++ escAll [] from rfl, escChar_special h]
    have : escAll xs ++ ([bslash, x] ++ escAll []) = (escAll xs ++ [bslash]) ++ [x] := by
      simp [escAll]
    rw [this, List.getLast?_concat]
  · have h' : isSpecial x = false := by simpa using h
    rw [show escAll [x] = escChar x ++ escAll [] from rfl, escChar_raw h']
    have : escAll xs ++ ([x] ++ escAll []) = escAll xs ++ [x] := by simp [escAll]
    rw [this, List.getLast?_concat]

lemma escAll_getLast_space (l : PyStr) :
    ((escAll l).getLast? = some ' ') ↔ (l.getLast? = some ' ') := by
  rcases List.eq_nil_or_concat l with h | ⟨xs, x, h⟩
  · subst h; simp [escAll]
  · subst h
    rw [List.concat_eq_append, escAll_getLast_concat, List.getLast?_concat]

lemma escAll_eq_self (l : PyStr) (h : ∀ c ∈ l, isSpecial c = false) : escAll l = l := by
  induction l with
  | nil => rfl
  | cons c cs ih =>
    have hs : escAll (c :: cs) = escChar c ++ escAll cs := rfl
    rw [hs, escChar_raw (h c (by simp)), ih (fun d hd => h d (by simp [hd]))]
    rfl

lemma escape_eq_self_of_clean (l : PyStr) (h : ∀ c ∈ l, isSpecial c = false)
    (h1 : l.head? ≠ some ' ') (h2 : l.getLast? ≠ some ' ') : escape_ldap_dn l = l := by
  unfold escape_ldap_dn
  rw [escSeq_eq_escAll, escAll_eq_self l h]
  simp [h1, h2]

/-- C10: On every string with no character from the nine-character
metacharacter set and with no leading or trailing space,
`escape_ldap_dn` is the identity. -/
theorem c10_escape_identity_on_clean (l : PyStr)
    (h : ∀ c ∈ l, isSpecial c = false)
    (h1 : l.head? ≠ some ' ') (h2 : l.getLast? ≠ some ' ') :
    escape_ldap_dn l = l :=
  escape_eq_self_of_clean l h h1 h2

/-- Witness for C10 at the clean string `alice`. -/
theorem c10_witness : escape_ldap_dn (("alice").data) = ("alice").data :=
  c10_escape_identity_on_clean _ (by decide) (by decide) (by decide)

lemma escape_eq_self_of_filter_meta (l : PyStr)
    (h : ∀ c ∈ l, isFilterMeta c = true) :
    escape_ldap_dn l = l ∧
    uidSearchFilter l = ("(uid=").data ++ l ++ [')'] ∧
    mailSearchFilter l = ("(mail=").data ++ l ++ [')'] := by
  have h' : ∀ c ∈ l, c = '(' ∨ c = ')' ∨ c = '*' := by
    intro c hc
    have := h c hc
    simp only [isFilterMeta, Bool.or_eq_true, decide_eq_true_eq] at this
    tauto
  have hclean : ∀ c ∈ l, isSpecial c = false := by
    intro c hc
    rcases h' c hc with hx | hx | hx <;> subst hx <;> decide
  have hsp : ∀ c ∈ l, c ≠ ' ' := by
    intro c hc
    rcases h' c hc with hx | hx | hx <;> subst hx <;> decide
  have h1 : l.head? ≠ some ' ' := by
    intro hh
    cases l with
    | nil => simp at hh
    | cons c cs => exact hsp c (by simp) (Option.some.inj hh)
  have h2 : l.getLast? ≠ some ' ' := by
    intro hh
    rcases List.eq_nil_or_concat l with he | ⟨xs, x, he⟩
    · subst he; simp at hh
    · subst he
      rw [List.concat_eq_append, List.getLast?_concat] at hh
      exact hsp x (by simp) (Option.some.inj hh)
  have hid : escape_ldap_dn l = l := escape_eq_self_of_clean l hclean h1 h2
  exact ⟨hid, by rw [uidSearchFilter, hid], by rw [mailSearchFilter, hid]⟩

/-! ## C4: the username rule -/

lemma ascii_alpha_iff {c : Char} (h : c.toNat ≤ 127) :
    pyIsAlpha c = true ↔
      ((65 ≤ c.toNat ∧ c.toNat ≤ 90) ∨ (97 ≤ c.toNat ∧ c.toNat ≤ 122)) := by
  simp only [pyIsAlpha, Bool.or_eq_true, Bool.and_eq_true, decide_eq_true_eq]
  omega

lemma ascii_cased_iff {c : Char} (h : c.toNat ≤ 127) :
    pyIsCased c = true ↔
      ((65 ≤ c.toNat ∧ c.toNat ≤ 90) ∨ (97 ≤ c.toNat ∧ c.toNat ≤ 122)) := by
  simp only [pyIsCased, Bool.or_eq_true, Bool.and_eq_true, decide_eq_true_eq]
  omega

lemma ascii_lower_iff {c : Char} (h : c.toNat ≤ 127) :
    pyIsLowerChar c = true ↔ (97 ≤ c.toNat ∧ c.toNat ≤ 122) := by
  simp only [pyIsLowerChar, Bool.or_eq_true, Bool.and_eq_true, decide_eq_true_eq]
  omega

lemma ascii_alnum_iff {c : Char} (h : c.toNat ≤ 127) :
    pyIsAlnumChar c = true ↔
      ((65 ≤ c.toNat ∧ c.toNat ≤ 90) ∨ (97 ≤ c.toNat ∧ c.toNat ≤ 122) ∨
       (48 ≤ c.toNat ∧ c.toNat ≤ 57)) := by
  simp only [pyIsAlnumChar, pyIsAlpha, pyIsNum, Bool.or_eq_true, Bool.and_eq_true,
    decide_eq_true_eq]
  omega

lemma underscore_toNat (c : Char) (h : c = '_') : c.toNat = 95 := by
  subst h; decide

lemma c4_chars_forward (u : PyStr) (hA : ∀ c ∈ u, c.toNat ≤ 127)
    (halnum : pyStrIsAlnum (u.filter (fun c => c ≠ '_')) = true)
    (hlower : pyStrIsLower u = true) :
    ∀ c ∈ u, (97 ≤ c.toNat ∧ c.toNat ≤ 122) ∨ (48 ≤ c.toNat ∧ c.toNat ≤ 57) ∨ c = '_' := by
  intro c hc
  by_cases hu : c = '_'
  · exact Or.inr (Or.inr hu)
  have hcf : c ∈ u.filter (fun d => d ≠ '_') := List.mem_filter.mpr ⟨hc, by simp [hu]⟩
  rw [pyStrIsAlnum, Bool.and_eq_true] at halnum
  rw [pyStrIsLower, Bool.and_eq_true] at hlower
  have halnum' : pyIsAlnumChar c = true := List.all_eq_true.mp halnum.2 c hcf
  have hcases := (ascii_alnum_iff (hA c hc)).mp halnum'
  rcases hcases with hup | hlo | hdig
  · -- an uppercase ASCII letter would violate islower
    have hcased : pyIsCased c = true := (ascii_cased_iff (hA c hc)).mpr (Or.inl hup)
    have hcl := List.all_eq_true.mp hlower.2 c hc
    have hlow : pyIsLowerChar c = true := by
      rw [Bool.or_eq_true] at hcl
      rcases hcl with hnc | hl
      · rw [Bool.not_eq_true'] at hnc
        rw [hnc] at hcased
        exact absurd hcased (by simp)
      · exact hl
    have := (ascii_lower_iff (hA c hc)).mp hlow
    omega
  · exact Or.inl hlo
  · exact Or.inr (Or.inl hdig)

lemma c4_chars_backward (c0 : Char) (rest : PyStr)
    (hA : ∀ c ∈ c0 :: rest, c.toNat ≤ 127)
    (hhead : pyIsAlpha c0 = true)
    (hall : ∀ c ∈ c0 :: rest,
      (97 ≤ c.toNat ∧ c.toNat ≤ 122) ∨ (48 ≤ c.toNat ∧ c.toNat ≤ 57) ∨ c = '_') :
    pyStrIsAlnum ((c0 :: rest).filter (fun c => c ≠ '_')) = true ∧
    pyStrIsLower (c0 :: rest) = true := by
  have hc0r : (97 ≤ c0.toNat ∧ c0.toNat ≤ 122) := by
    have ha := (ascii_alpha_iff (hA c0 (by simp))).mp hhead
    rcases hall c0 (by simp) with h | h | h
    · exact h
    · omega
    · have := underscore_toNat c0 h; omega
  have hc0u : c0 ≠ '_' := by
    intro h
    have := underscore_toNat c0 h
    omega
  constructor
  · rw [pyStrIsAlnum, Bool.and_eq_true]
    constructor
    · have hmem : c0 ∈ (c0 :: rest).filter (fun c => c ≠ '_') :=
        List.mem_filter.mpr ⟨by simp, by simp [hc0u]⟩
      cases hfe : (c0 :: rest).filter (fun c => c ≠ '_') with
      | nil => rw [hfe] at hmem; exact absurd hmem (by simp)
      | cons a as => rfl
    · rw [List.all_eq_true]
      intro c hc
      have hcu : c ∈ (c0 :: rest) ∧ c ≠ '_' := by
        have := List.mem_filter.mp hc
        exact ⟨this.1, by simpa using this.2⟩
      rcases hall c hcu.1 with h | h | h
      · exact (ascii_alnum_iff (hA c hcu.1)).mpr (Or.inr (Or.inl h))
      · exact (ascii_alnum_iff (hA c hcu.1)).mpr (Or.inr (Or.inr h))
      · exact absurd h hcu.2
  · rw [pyStrIsLower, Bool.and_eq_true]
    constructor
    · rw [List.any_eq_true]
      exact ⟨c0, by simp, (ascii_cased_iff (hA c0 (by simp))).mpr (Or.inr hc0r)⟩
    · rw [List.all_eq_true]
      intro c hc
      rw [Bool.or_eq_true]
      by_cases hcc : pyIsCased c = true
      · refine Or.inr ?_
        have := (ascii_cased_iff (hA c hc)).mp hcc
        rcases hall c hc with h | h | h
        · exact (ascii_lower_iff (hA c hc)).mpr h
        · omega
        · have := underscore_toNat c h; omega
      · exact Or.inl (by simp [hcc])

/-- C4 amended: restricted to ASCII strings, `validate_username_strict`
passes exactly on the claim's rule (length 2-64, alphabetic first
character, all characters lowercase ASCII letters, digits or
underscores). Unrestricted, the claim fails: see the counterexample. -/
theorem c4_username_rule_ascii (u : PyStr) (hA : ∀ c ∈ u, c.toNat ≤ 127) :
    validate_username_strict u = claimedUsernameRule u := by
  cases u with
  | nil => rfl
  | cons c0 rest =>
    rw [Bool.eq_iff_iff]
    constructor
    · intro hv
      rw [validate_username_strict] at hv
      split_ifs at hv with h1 h2 h3
      simp only [List.isEmpty_cons, Bool.or_eq_true, decide_eq_true_eq, not_or,
        Bool.not_eq_true, Bool.false_eq_true, not_false_iff, true_and] at h1
      simp only [Bool.or_eq_true, not_or, Bool.not_eq_true', Bool.not_eq_false] at h2
      simp only [List.head?_cons, Bool.not_eq_true', Bool.not_eq_false] at h3
      have hchars := c4_chars_forward (c0 :: rest) hA h2.1 h2.2
      rw [claimedUsernameRule]
      simp only [List.head?_cons, Bool.and_eq_true, decide_eq_true_eq, List.all_eq_true,
        Bool.or_eq_true]
      refine ⟨⟨⟨?_, ?_⟩, h3⟩, ?_⟩
      · omega
      · omega
      · intro c hc
        rcases hchars c hc with h | h | h
        · exact Or.inl (Or.inl h)
        · exact Or.inl (Or.inr h)
        · exact Or.inr h
    · intro hc
      rw [claimedUsernameRule] at hc
      simp only [List.head?_cons, Bool.and_eq_true, decide_eq_true_eq, List.all_eq_true,
        Bool.or_eq_true] at hc
      obtain ⟨⟨⟨hl2, hl64⟩, hal⟩, hall⟩ := hc
      have hall' : ∀ c ∈ c0 :: rest,
          (97 ≤ c.toNat ∧ c.toNat ≤ 122) ∨ (48 ≤ c.toNat ∧ c.toNat ≤ 57) ∨ c = '_' := by
        intro c hcm
        rcases hall c hcm with (h | h) | h
        · exact Or.inl h
        · exact Or.inr (Or.inl h)
        · exact Or.inr (Or.inr h)
      obtain ⟨ha, hl⟩ := c4_chars_backward c0 rest hA hal hall'
      rw [validate_username_strict]
      have hc1 : ¬(((c0 :: rest).isEmpty || decide ((c0 :: rest).length < 2) ||
          decide (64 < (c0 :: rest).length)) = true) := by
        intro hcontra
        simp only [List.isEmpty_cons, Bool.or_eq_true, decide_eq_true_eq,
          Bool.false_eq_true, false_or] at hcontra
        rcases hcontra with h | h <;> omega
      have hc2 : ¬((!pyStrIsAlnum ((c0 :: rest).filter (fun c => c ≠ '_')) ||
          !pyStrIsLower (c0 :: rest)) = true) := by
        rw [ha, hl]
        simp
      have hc3 : ¬((!(match (c0 :: rest).head? with
          | some c => pyIsAlpha c | none => false)) = true) := by
        simp only [List.head?_cons]
        rw [hal]
        simp
      rw [if_neg hc1, if_neg hc2, if_neg hc3]

/-- C4 counterexample: the two-character string `ña` (U+00F1 then `a`)
passes `validate_username_strict` — Python's `isalnum`/`islower`/
`isalpha` are Unicode-aware — yet `ñ` is not a lowercase ASCII letter,
an ASCII digit, or an underscore, so the claimed characterisation is
violated. -/
theorem c4_counterexample :
    validate_username_strict ['ñ', 'a'] = true ∧
    claimedUsernameRule ['ñ', 'a'] = false := by decide

/-- Witness for C4 (amended) at the ASCII string `alice`. -/
theorem c4_witness :
    validate_username_strict (("alice").data) = claimedUsernameRule (("alice").data) :=
  c4_username_rule_ascii (("alice").data) (by decide)

/-! ## C1: compensating delete on credential-assignment failure -/

/-- C1 counterexample: with valid inputs, `ldapadd` succeeding and
`ldappasswd` timing out, `create_lldap_user` returns failure but issues
no `ldapdelete` — the just-created identity is left behind, contradicting
the claim that cleanup is attempted for timeouts as well. -/
theorem c1_counterexample :
    (create_lldap_user ⟨("dc=example,dc=com").data, ("admin").data⟩
        (("alice").data) (("a@b.co").data) (("Alice").data) (("Doe").data)
        (("pw123").data) ⟨.completed 0 [], .timedOut, .completed 0 []⟩).success = false ∧
    hasDelete (create_lldap_user ⟨("dc=example,dc=com").data, ("admin").data⟩
        (("alice").data) (("a@b.co").data) (("Alice").data) (("Doe").data)
        (("pw123").data) ⟨.completed 0 [], .timedOut, .completed 0 []⟩).calls = false := by
  decide

/-- C1 amended: when the entry-creation call succeeds and the
credential-assignment call completes with a non-zero result, a
best-effort `ldapdelete` is issued and a failure is returned no matter
how the cleanup itself ends; when credential assignment instead times
out or raises, the failure is returned with no cleanup attempted. -/
theorem c1_cleanup_behaviour (lcfg : LdapConfig) (u e f l pw sA : PyStr)
    (hu : validate_username_strict u = true)
    (he : validate_email_basic e = true)
    (hf : (f.isEmpty || decide (100 < f.length) || l.isEmpty ||
      decide (100 < l.length)) = false) :
    (∀ (rc2 : Int) (s2 : PyStr) (dr : ProcResult), rc2 ≠ 0 →
      (create_lldap_user lcfg u e f l pw
          ⟨.completed 0 sA, .completed rc2 s2, dr⟩).success = false ∧
      hasDelete (create_lldap_user lcfg u e f l pw
          ⟨.completed 0 sA, .completed rc2 s2, dr⟩).calls = true) ∧
    (∀ (pr : ProcResult), pr = ProcResult.timedOut ∨ (∃ m, pr = ProcResult.raised m) →
      (create_lldap_user lcfg u e f l pw
          ⟨.completed 0 sA, pr, .completed 0 []⟩).success = false ∧
      hasDelete (create_lldap_user lcfg u e f l pw
          ⟨.completed 0 sA, pr, .completed 0 []⟩).calls = false) := by
  have hf' : (f.isEmpty || 100 < f.length || l.isEmpty || 100 < l.length) = false := hf
  constructor
  · intro rc2 s2 dr hrc
    rw [create_lldap_user]
    simp only [hu, he, hf', Bool.not_true, Bool.false_eq_true, if_false]
    cases dr <;> simp [hrc, hasDelete]
  · rintro pr (hpr | ⟨m, hpr⟩) <;> subst hpr <;>
      · rw [create_lldap_user]
        simp only [hu, he, hf', Bool.not_true, Bool.false_eq_true, if_false]
        simp [hasDelete]

/-- Witness for C1 (amended): concrete inputs exercising both the
non-zero-result branch (delete issued) and the timeout branch (no
delete). -/
theorem c1_witness :
    ((create_lldap_user ⟨("dc=example,dc=com").data, ("admin").data⟩
        (("bob").data) (("b@c.io").data) (("Bob").data) (("Ray").data)
        (("pw456").data) ⟨.completed 0 [], .completed 1 (("err").data), .timedOut⟩).success = false ∧
      hasDelete (create_lldap_user ⟨("dc=example,dc=com").data, ("admin").data⟩
        (("bob").data) (("b@c.io").data) (("Bob").data) (("Ray").data)
        (("pw456").data) ⟨.completed 0 [], .completed 1 (("err").data), .timedOut⟩).calls = true) ∧
    ((create_lldap_user ⟨("dc=example,dc=com").data, ("admin").data⟩
        (("bob").data) (("b@c.io").data) (("Bob").data) (("Ray").data)
        (("pw456").data) ⟨.completed 0 [], .timedOut, .completed 0 []⟩).success = false ∧
      hasDelete (create_lldap_user ⟨("dc=example,dc=com").data, ("admin").data⟩
        (("bob").data) (("b@c.io").data) (("Bob").data) (("Ray").data)
        (("pw456").data) ⟨.completed 0 [], .timedOut, .completed 0 []⟩).calls = false) :=
  ⟨(c1_cleanup_behaviour ⟨("dc=example,dc=com").data, ("admin").data⟩
      (("bob").data) (("b@c.io").data) (("Bob").data) (("Ray").data)
      (("pw456").data) [] (by decide) (by decide) (by decide)).1
      1 (("err").data) .timedOut (by decide),
   (c1_cleanup_behaviour ⟨("dc=example,dc=com").data, ("admin").data⟩
      (("bob").data) (("b@c.io").data) (("Bob").data) (("Ray").data)
      (("pw456").data) [] (by decide) (by decide) (by decide)).2
      .timedOut (Or.inl rfl)⟩

/-! ## C7: approve on a missing id -/

/-- C7: when no pending row has the requested id, `approve_request`
returns the 404 error, leaves the store untouched, performs no directory
call and emits no notification. -/
theorem c7_approve_notfound (store : Store) (id : Nat) (admin : PyStr)
    (lcfg : LdapConfig) (pw : PyStr) (env : LdapEnv) (cfg : EmailConfig) (ts : PyStr)
    (h : findReq store id = none) :
    approve_request store id admin lcfg pw env cfg ts =
      ⟨store, .httpError 404 (("Request not found").data), [], []⟩ := by
  rw [approve_request, h]

/-- Witness for C7 on the freshly initialised store. -/
theorem c7_witness :
    approve_request emptyStore 1 (("admin1").data)
        ⟨("dc=example,dc=com").data, ("admin").data⟩ (("pw").data)
        ⟨.completed 0 [], .completed 0 [], .completed 0 []⟩ ⟨false, false, []⟩ (("t0").data) =
      ⟨emptyStore, .httpError 404 (("Request not found").data), [], []⟩ :=
  c7_approve_notfound emptyStore 1 (("admin1").data)
    ⟨("dc=example,dc=com").data, ("admin").data⟩ (("pw").data)
    ⟨.completed 0 [], .completed 0 [], .completed 0 []⟩ ⟨false, false, []⟩ (("t0").data)
    (by decide)

/-! ## C8: resolution writes exactly one audit entry -/

lemma countP_id_filter_ne (pending : List RegRow) (id : Nat) :
    (pending.filter (fun r => r.id ≠ id)).countP (fun r => r.id = id) = 0 := by
  rw [List.countP_eq_zero]
  intro a ha
  have := (List.mem_filter.mp ha).2
  simpa using this

/-- C8: rejecting an existing pending row appends exactly one REJECTED
audit entry whose `rejection_reason` is the supplied reason (the form's
default text when none is supplied) and deletes the pending row, leaving
zero pending rows with that id; a successful approval likewise appends
exactly one APPROVED audit entry and deletes the pending row. -/
theorem c8_resolution_audit (store : Store) (id : Nat) (admin : PyStr) (req : RegRow)
    (reasonForm : Option PyStr) (lcfg : LdapConfig) (pw : PyStr) (env : LdapEnv)
    (cfg : EmailConfig) (ts : PyStr)
    (hfind : findReq store id = some req) :
    ((reject_request store id admin reasonForm cfg ts).store.audit =
        store.audit ++
          [⟨req.username, req.email, req.first_name, req.last_name, req.reason,
            .rejected, admin, some (reasonForm.getD defaultRejectReason),
            req.ip_address, req.user_agent, req.created_at⟩] ∧
      (reject_request store id admin reasonForm cfg ts).store.pending.countP
        (fun r => r.id = id) = 0) ∧
    ((create_lldap_user lcfg req.username req.email req.first_name req.last_name
        pw env).success = true →
      ((approve_request store id admin lcfg pw env cfg ts).store.audit =
          store.audit ++
            [⟨req.username, req.email, req.first_name, req.last_name, req.reason,
              .approved, admin, none, req.ip_address, req.user_agent, req.created_at⟩] ∧
        (approve_request store id admin lcfg pw env cfg ts).store.pending.countP
          (fun r => r.id = id) = 0)) := by
  constructor
  · rw [reject_request, hfind]
    exact ⟨rfl, countP_id_filter_ne store.pending id⟩
  · intro hsucc
    rw [approve_request, hfind]
    simp only [hsucc, if_true, true_and]
    exact countP_id_filter_ne store.pending id

/-- Witness for C8: a one-row store, rejected with no reason (default
text applies) and approved with a fully succeeding directory
environment. -/
theorem c8_witness :
    ((reject_request
        ⟨[⟨1, ("alice").data, ("a@b.co").data, ("Alice").data, ("Doe").data, [],
           ("ip1").data, ("ua1").data, 5⟩], 2, []⟩
        1 (("admin1").data) none ⟨false, false, []⟩ (("t1").data)).store.audit =
      [] ++
        [⟨("alice").data, ("a@b.co").data, ("Alice").data, ("Doe").data, [],
          .rejected, ("admin1").data, some (Option.none.getD defaultRejectReason),
          ("ip1").data, ("ua1").data, 5⟩] ∧
      (reject_request
        ⟨[⟨1, ("alice").data, ("a@b.co").data, ("Alice").data, ("Doe").data, [],
           ("ip1").data, ("ua1").data, 5⟩], 2, []⟩
        1 (("admin1").data) none ⟨false, false, []⟩ (("t1").data)).store.pending.countP
        (fun r => r.id = 1) = 0) ∧
    ((create_lldap_user ⟨("dc=example,dc=com").data, ("admin").data⟩
        (("alice").data) (("a@b.co").data) (("Alice").data) (("Doe").data)
        (("pw").data) ⟨.completed 0 [], .completed 0 [], .completed 0 []⟩).success = true →
      ((approve_request
          ⟨[⟨1, ("alice").data, ("a@b.co").data, ("Alice").data, ("Doe").data, [],
             ("ip1").data, ("ua1").data, 5⟩], 2, []⟩
          1 (("admin1").data) ⟨("dc=example,dc=com").data, ("admin").data⟩ (("pw").data)
          ⟨.completed 0 [], .completed 0 [], .completed 0 []⟩ ⟨false, false, []⟩
          (("t1").data)).store.audit =
        [] ++
          [⟨("alice").data, ("a@b.co").data, ("Alice").data, ("Doe").data, [],
            .approved, ("admin1").data, none, ("ip1").data, ("ua1").data, 5⟩] ∧
        (approve_request
          ⟨[⟨1, ("alice").data, ("a@b.co").data, ("Alice").data, ("Doe").data, [],
             ("ip1").data, ("ua1").data, 5⟩], 2, []⟩
          1 (("admin1").data) ⟨("dc=example,dc=com").data, ("admin").data⟩ (("pw").data)
          ⟨.completed 0 [], .completed 0 [], .completed 0 []⟩ ⟨false, false, []⟩
          (("t1").data)).store.pending.countP (fun r => r.id = 1) = 0)) :=
  c8_resolution_audit
    ⟨[⟨1, ("alice").data, ("a@b.co").data, ("Alice").data, ("Doe").data, [],
       ("ip1").data, ("ua1").data, 5⟩], 2, []⟩
    1 (("admin1").data)
    ⟨1, ("alice").data, ("a@b.co").data, ("Alice").data, ("Doe").data, [],
     ("ip1").data, ("ua1").data, 5⟩
    none ⟨("dc=example,dc=com").data, ("admin").data⟩ (("pw").data)
    ⟨.completed 0 [], .completed 0 [], .completed 0 []⟩ ⟨false, false, []⟩ (("t1").data)
    (by decide)

/-! ## C3: provisioning failure leaves the request retriable -/

lemma occursIn_nil (l : PyStr) : occursIn [] l = true := by
  cases l with
  | nil => rfl
  | cons c cs =>
    rw [occursIn, Bool.or_eq_true]
    exact Or.inl (by rw [List.isPrefixOf_iff_prefix]; exact List.nil_prefix)

lemma occursIn_self_append (n s : PyStr) : occursIn n (n ++ s) = true := by
  cases n with
  | nil => simpa using occursIn_nil s
  | cons c cs =>
    rw [List.cons_append, occursIn, Bool.or_eq_true]
    refine Or.inl ?_
    rw [List.isPrefixOf_iff_prefix]
    exact List.prefix_append (c :: cs) s

lemma occursIn_append_right (n p s : PyStr) (h : occursIn n s = true) :
    occursIn n (p ++ s) = true := by
  induction p with
  | nil => simpa using h
  | cons c cs ih =>
    rw [List.cons_append, occursIn, Bool.or_eq_true]
    exact Or.inr ih

lemma occursIn_refl (n : PyStr) : occursIn n n = true := by
  have := occursIn_self_append n []
  rwa [List.append_nil] at this

lemma occursIn_append_left (n h s : PyStr) (hh : occursIn n h = true) :
    occursIn n (h ++ s) = true := by
  induction h with
  | nil =>
    have hn : n = [] := by
      cases n with
      | nil => rfl
      | cons c cs => simp [occursIn] at hh
    subst hn
    simpa using occursIn_nil s
  | cons c cs ih =>
    rw [occursIn, Bool.or_eq_true] at hh
    rw [List.cons_append, occursIn, Bool.or_eq_true]
    rcases hh with hp | ho
    · refine Or.inl ?_
      rw [List.isPrefixOf_iff_prefix] at hp ⊢
      exact hp.trans (List.prefix_append (c :: cs) s)
    · exact Or.inr (ih ho)


/-- C3 counterexample: on a store holding the pending request, an
approval whose `ldapadd` fails with stderr `boom` yields exactly the
same HTTP response as a fully successful approval — the bare `/admin`
redirect — and that response does not contain the provisioning error, so
the error is not surfaced to the administrator in the response. -/
theorem c3_counterexample :
    (approve_request
        ⟨[⟨1, ("alice").data, ("a@b.co").data, ("Alice").data, ("Doe").data, [],
           ("ip1").data, ("ua1").data, 5⟩], 2, []⟩
        1 (("admin1").data) ⟨("dc=example,dc=com").data, ("admin").data⟩ (("pw").data)
        ⟨.completed 1 (("boom").data), .completed 0 [], .completed 0 []⟩
        ⟨false, false, []⟩ (("t1").data)).response =
      .redirect (("/admin").data) 303 ∧
    (approve_request
        ⟨[⟨1, ("alice").data, ("a@b.co").data, ("Alice").data, ("Doe").data, [],
           ("ip1").data, ("ua1").data, 5⟩], 2, []⟩
        1 (("admin1").data) ⟨("dc=example,dc=com").data, ("admin").data⟩ (("pw").data)
        ⟨.completed 0 [], .completed 0 [], .completed 0 []⟩
        ⟨false, false, []⟩ (("t1").data)).response =
      .redirect (("/admin").data) 303 ∧
    occursIn (("boom").data) (("/admin").data) = false := by decide

/-- C3 amended: when the pending row exists and provisioning fails, the
store is left completely untouched (row preserved, no audit entry, so
the approval can be retried), no notification or file write happens —
the only side effects are console lines — and the provisioning error
appears in a console line; the HTTP response is the same `/admin`
redirect returned on success, carrying no error information. -/
theorem c3_provision_failure_retriable (store : Store) (id : Nat) (admin : PyStr)
    (lcfg : LdapConfig) (pw : PyStr) (env : LdapEnv) (cfg : EmailConfig) (ts : PyStr)
    (req : RegRow) (hfind : findReq store id = some req)
    (hfail : (create_lldap_user lcfg req.username req.email req.first_name req.last_name
      pw env).success = false) :
    (approve_request store id admin lcfg pw env cfg ts).store = store ∧
    (approve_request store id admin lcfg pw env cfg ts).response =
      .redirect (("/admin").data) 303 ∧
    (∀ ev ∈ (approve_request store id admin lcfg pw env cfg ts).events,
      ∃ line, ev = SinkEvent.consoleLine line) ∧
    (∃ line, SinkEvent.consoleLine line ∈ (approve_request store id admin lcfg pw env cfg ts).events ∧
      occursIn (create_lldap_user lcfg req.username req.email req.first_name req.last_name
        pw env).error line = true) := by
  rw [approve_request, hfind]
  simp only [hfail, Bool.false_eq_true, if_false]
  refine ⟨trivial, trivial, ?_, ?_⟩
  · intro ev hev
    rw [List.mem_append] at hev
    rcases hev with h | h
    · rcases List.mem_map.mp h with ⟨l, _, hl⟩
      exact ⟨l, hl.symm⟩
    · rw [List.mem_singleton] at h
      exact ⟨_, h⟩
  · refine ⟨("[ERROR] Failed to create user ").data ++ req.username ++ (": ").data ++
      (create_lldap_user lcfg req.username req.email req.first_name req.last_name
        pw env).error, ?_, ?_⟩
    · rw [List.mem_append]
      exact Or.inr (by rw [List.mem_singleton])
    · exact occursIn_append_right _ _ _ (occursIn_refl _)

/-- Witness for C3 (amended) at a concrete failing approval. -/
theorem c3_witness :
    (approve_request
        ⟨[⟨1, ("alice").data, ("a@b.co").data, ("Alice").data, ("Doe").data, [],
           ("ip1").data, ("ua1").data, 5⟩], 2, []⟩
        1 (("admin1").data) ⟨("dc=example,dc=com").data, ("admin").data⟩ (("pw").data)
        ⟨.completed 0 [], .timedOut, .completed 0 []⟩
        ⟨false, false, []⟩ (("t1").data)).store =
      ⟨[⟨1, ("alice").data, ("a@b.co").data, ("Alice").data, ("Doe").data, [],
         ("ip1").data, ("ua1").data, 5⟩], 2, []⟩ ∧
    (approve_request
        ⟨[⟨1, ("alice").data, ("a@b.co").data, ("Alice").data, ("Doe").data, [],
           ("ip1").data, ("ua1").data, 5⟩], 2, []⟩
        1 (("admin1").data) ⟨("dc=example,dc=com").data, ("admin").data⟩ (("pw").data)
        ⟨.completed 0 [], .timedOut, .completed 0 []⟩
        ⟨false, false, []⟩ (("t1").data)).response =
      .redirect (("/admin").data) 303 ∧
    (∀ ev ∈ (approve_request
        ⟨[⟨1, ("alice").data, ("a@b.co").data, ("Alice").data, ("Doe").data, [],
           ("ip1").data, ("ua1").data, 5⟩], 2, []⟩
        1 (("admin1").data) ⟨("dc=example,dc=com").data, ("admin").data⟩ (("pw").data)
        ⟨.completed 0 [], .timedOut, .completed 0 []⟩
        ⟨false, false, []⟩ (("t1").data)).events,
      ∃ line, ev = SinkEvent.consoleLine line) ∧
    (∃ line, SinkEvent.consoleLine line ∈ (approve_request
        ⟨[⟨1, ("alice").data, ("a@b.co").data, ("Alice").data, ("Doe").data, [],
           ("ip1").data, ("ua1").data, 5⟩], 2, []⟩
        1 (("admin1").data) ⟨("dc=example,dc=com").data, ("admin").data⟩ (("pw").data)
        ⟨.completed 0 [], .timedOut, .completed 0 []⟩
        ⟨false, false, []⟩ (("t1").data)).events ∧
      occursIn (create_lldap_user ⟨("dc=example,dc=com").data, ("admin").data⟩
        (("alice").data) (("a@b.co").data) (("Alice").data) (("Doe").data)
        (("pw").data) ⟨.completed 0 [], .timedOut, .completed 0 []⟩).error line = true) :=
  c3_provision_failure_retriable
    ⟨[⟨1, ("alice").data, ("a@b.co").data, ("Alice").data, ("Doe").data, [],
       ("ip1").data, ("ua1").data, 5⟩], 2, []⟩
    1 (("admin1").data) ⟨("dc=example,dc=com").data, ("admin").data⟩ (("pw").data)
    ⟨.completed 0 [], .timedOut, .completed 0 []⟩ ⟨false, false, []⟩ (("t1").data)
    ⟨1, ("alice").data, ("a@b.co").data, ("Alice").data, ("Doe").data, [],
     ("ip1").data, ("ua1").data, 5⟩
    (by decide) (by decide)

/-! ## C5: where the generated credential can flow -/

lemma consoleOf_append (a b : List SinkEvent) :
    consoleOf (a ++ b) = consoleOf a ++ consoleOf b :=
  List.filterMap_append a b _

lemma consoleOf_map_console (l : List PyStr) :
    consoleOf (l.map SinkEvent.consoleLine) = l := by
  induction l with
  | nil => rfl
  | cons c cs ih => simp [consoleOf] at ih ⊢; exact ih

lemma persistent_append (a b : List SinkEvent) :
    persistentEvents (a ++ b) = persistentEvents a ++ persistentEvents b :=
  List.filter_append a b

lemma persistent_map_console (l : List PyStr) :
    persistentEvents (l.map SinkEvent.consoleLine) = [] := by
  induction l with
  | nil => rfl
  | cons c cs ih => simp only [List.map_cons] at ih ⊢; simp [persistentEvents, ih]

lemma create_indep (lcfg : LdapConfig) (u e f l pw pw' : PyStr) (env : LdapEnv) :
    (create_lldap_user lcfg u e f l pw env).success =
      (create_lldap_user lcfg u e f l pw' env).success ∧
    (create_lldap_user lcfg u e f l pw env).console =
      (create_lldap_user lcfg u e f l pw' env).console ∧
    (create_lldap_user lcfg u e f l pw env).error =
      (create_lldap_user lcfg u e f l pw' env).error := by
  cases env with
  | mk ra rp rd =>
    rw [create_lldap_user, create_lldap_user]
    split_ifs with h1 h2 h3
    · exact ⟨rfl, rfl, rfl⟩
    · exact ⟨rfl, rfl, rfl⟩
    · exact ⟨rfl, rfl, rfl⟩
    · cases ra with
      | timedOut => exact ⟨rfl, rfl, rfl⟩
      | raised m => exact ⟨rfl, rfl, rfl⟩
      | completed rc s =>
        dsimp only
        split_ifs with hrc
        · exact ⟨rfl, rfl, rfl⟩
        · cases rp with
          | timedOut => exact ⟨rfl, rfl, rfl⟩
          | raised m => exact ⟨rfl, rfl, rfl⟩
          | completed rc2 s2 =>
            dsimp only
            split_ifs with hrc2
            · cases rd <;> exact ⟨rfl, rfl, rfl⟩
            · exact ⟨rfl, rfl, rfl⟩

lemma create_success_password (lcfg : LdapConfig) (u e f l pw : PyStr) (env : LdapEnv)
    (h : (create_lldap_user lcfg u e f l pw env).success = true) :
    (create_lldap_user lcfg u e f l pw env).password = pw := by
  cases env with
  | mk ra rp rd =>
    rw [create_lldap_user] at h ⊢
    split_ifs at h ⊢ with h1 h2 h3
    dsimp only
    cases ra with
    | timedOut => simp at h
    | raised m => simp at h
    | completed rc s =>
      dsimp only at h ⊢
      split_ifs at h ⊢ with hrc
      cases rp with
      | timedOut => simp at h
      | raised m => simp at h
      | completed rc2 s2 =>
        dsimp only at h ⊢
        split_ifs at h ⊢ with hrc2 <;>
          first
            | rfl
            | (cases rd <;> simp at h)

lemma send_email_consoleOf_indep (cfg : EmailConfig) (ts toAddr subj b b' : PyStr) :
    consoleOf (send_email cfg ts toAddr subj b).2 =
      consoleOf (send_email cfg ts toAddr subj b').2 := by
  rcases cfg with ⟨se, sr, rm⟩
  cases se <;> cases sr <;> simp [send_email, consoleOf]

/-- C5 counterexample: with SMTP disabled, a successful approval appends
the approval notification — generated credential included, in the clear
— to the durable email log file `/data/emails.log`. -/
theorem c5_counterexample :
    ((approve_request
        ⟨[⟨1, ("alice").data, ("a@b.co").data, ("Alice").data, ("Doe").data, [],
           ("ip1").data, ("ua1").data, 5⟩], 2, []⟩
        1 (("admin1").data) ⟨("dc=example,dc=com").data, ("admin").data⟩
        (("Zq7wX9pR2t").data)
        ⟨.completed 0 [], .completed 0 [], .completed 0 []⟩
        ⟨false, false, []⟩ (("t1").data)).events.any
      (fun e => match e with
        | .fileAppend _ content => occursIn (("Zq7wX9pR2t").data) content
        | _ => false)) = true := by decide

/-- C5 amended: the credential is never persisted to the local store and
never reaches a console log line — both are independent of the generated
password — but with SMTP disabled the single outbound approval
notification is materialised as an append to the durable email log file,
which therefore does hold the credential in the clear. -/
theorem c5_credential_flow (store : Store) (id : Nat) (admin : PyStr)
    (lcfg : LdapConfig) (env : LdapEnv) (cfg : EmailConfig) (ts pw pw' : PyStr) :
    ((approve_request store id admin lcfg pw env cfg ts).store =
      (approve_request store id admin lcfg pw' env cfg ts).store) ∧
    (consoleOf (approve_request store id admin lcfg pw env cfg ts).events =
      consoleOf (approve_request store id admin lcfg pw' env cfg ts).events) ∧
    (∀ req, findReq store id = some req →
      (create_lldap_user lcfg req.username req.email req.first_name req.last_name
        pw env).success = true →
      cfg.smtpEnabled = false →
      persistentEvents (approve_request store id admin lcfg pw env cfg ts).events =
        [SinkEvent.fileAppend emailLogFile
          (emailLogRecord ts req.email (("Account approved").data)
            (approvedBody req.username pw))] ∧
      occursIn pw (emailLogRecord ts req.email (("Account approved").data)
        (approvedBody req.username pw)) = true) := by
  refine ⟨?_, ?_, ?_⟩
  · rw [approve_request, approve_request]
    cases hf : findReq store id with
    | none => rfl
    | some req =>
      obtain ⟨hs, _, _⟩ :=
        create_indep lcfg req.username req.email req.first_name req.last_name pw pw' env
      by_cases hsucc : (create_lldap_user lcfg req.username req.email req.first_name
          req.last_name pw env).success = true
      · have hsucc' : (create_lldap_user lcfg req.username req.email req.first_name
            req.last_name pw' env).success = true := by rw [← hs]; exact hsucc
        simp only [hsucc, hsucc', if_true]
      · have hsucc' : ¬(create_lldap_user lcfg req.username req.email req.first_name
            req.last_name pw' env).success = true := by rw [← hs]; exact hsucc
        simp only [if_neg hsucc, if_neg hsucc']
  · rw [approve_request, approve_request]
    cases hf : findReq store id with
    | none => rfl
    | some req =>
      obtain ⟨hs, hc, he⟩ :=
        create_indep lcfg req.username req.email req.first_name req.last_name pw pw' env
      by_cases hsucc : (create_lldap_user lcfg req.username req.email req.first_name
          req.last_name pw env).success = true
      · have hsucc' : (create_lldap_user lcfg req.username req.email req.first_name
            req.last_name pw' env).success = true := by rw [← hs]; exact hsucc
        simp only [hsucc, hsucc', if_true]
        rw [consoleOf_append, consoleOf_append, consoleOf_append, consoleOf_append]
        rw [consoleOf_map_console, consoleOf_map_console, hc]
        rw [show (notify_user_approved cfg ts req.email req.username
              (create_lldap_user lcfg req.username req.email req.first_name req.last_name
                pw env).password).2 =
            (send_email cfg ts req.email (("Account approved").data)
              (approvedBody req.username
                (create_lldap_user lcfg req.username req.email req.first_name req.last_name
                  pw env).password)).2 from rfl]
        rw [show (notify_user_approved cfg ts req.email req.username
              (create_lldap_user lcfg req.username req.email req.first_name req.last_name
                pw' env).password).2 =
            (send_email cfg ts req.email (("Account approved").data)
              (approvedBody req.username
                (create_lldap_user lcfg req.username req.email req.first_name req.last_name
                  pw' env).password)).2 from rfl]
        rw [send_email_consoleOf_indep cfg ts req.email (("Account approved").data)
          (approvedBody req.username
            (create_lldap_user lcfg req.username req.email req.first_name req.last_name
              pw env).password)
          (approvedBody req.username
            (create_lldap_user lcfg req.username req.email req.first_name req.last_name
              pw' env).password)]
      · have hsucc' : ¬(create_lldap_user lcfg req.username req.email req.first_name
            req.last_name pw' env).success = true := by rw [← hs]; exact hsucc
        simp only [if_neg hsucc, if_neg hsucc']
        rw [consoleOf_append, consoleOf_append, consoleOf_map_console,
          consoleOf_map_console, hc, he]
  · intro req hfind hsucc hsm
    rw [approve_request, hfind]
    simp only [hsucc, if_true]
    constructor
    · rw [persistent_append, persistent_append, persistent_map_console]
      rcases cfg with ⟨se, sr, rm⟩
      simp only at hsm
      subst hsm
      rw [create_success_password lcfg req.username req.email req.first_name req.last_name
        pw env hsucc]
      rfl
    · exact occursIn_append_left _ _ _ (occursIn_append_left _ _ _
        (occursIn_append_left _ _ _ (occursIn_append_right _ _ _
          (occursIn_append_left _ _ _ (occursIn_append_left _ _ _
            (occursIn_append_left _ _ _ (occursIn_append_left _ _ _
              (occursIn_append_left _ _ _ (occursIn_append_right _ _ _
                (occursIn_refl pw))))))))))

/-- Witness for C5 (amended) at a concrete successful approval with SMTP
disabled. -/
theorem c5_witness :
    ((approve_request
        ⟨[⟨1, ("alice").data, ("a@b.co").data, ("Alice").data, ("Doe").data, [],
           ("ip1").data, ("ua1").data, 5⟩], 2, []⟩
        1 (("admin1").data) ⟨("dc=example,dc=com").data, ("admin").data⟩
        (("Zq7wX9pR2t").data) ⟨.completed 0 [], .completed 0 [], .completed 0 []⟩
        ⟨false, false, []⟩ (("t1").data)).store =
      (approve_request
        ⟨[⟨1, ("alice").data, ("a@b.co").data, ("Alice").data, ("Doe").data, [],
           ("ip1").data, ("ua1").data, 5⟩], 2, []⟩
        1 (("admin1").data) ⟨("dc=example,dc=com").data, ("admin").data⟩
        (("otherpw").data) ⟨.completed 0 [], .completed 0 [], .completed 0 []⟩
        ⟨false, false, []⟩ (("t1").data)).store) ∧
    persistentEvents (approve_request
        ⟨[⟨1, ("alice").data, ("a@b.co").data, ("Alice").data, ("Doe").data, [],
           ("ip1").data, ("ua1").data, 5⟩], 2, []⟩
        1 (("admin1").data) ⟨("dc=example,dc=com").data, ("admin").data⟩
        (("Zq7wX9pR2t").data) ⟨.completed 0 [], .completed 0 [], .completed 0 []⟩
        ⟨false, false, []⟩ (("t1").data)).events =
      [SinkEvent.fileAppend emailLogFile
        (emailLogRecord (("t1").data) (("a@b.co").data) (("Account approved").data)
          (approvedBody (("alice").data) (("Zq7wX9pR2t").data)))] ∧
    occursIn (("Zq7wX9pR2t").data)
      (emailLogRecord (("t1").data) (("a@b.co").data) (("Account approved").data)
        (approvedBody (("alice").data) (("Zq7wX9pR2t").data))) = true :=
  ⟨(c5_credential_flow
      ⟨[⟨1, ("alice").data, ("a@b.co").data, ("Alice").data, ("Doe").data, [],
         ("ip1").data, ("ua1").data, 5⟩], 2, []⟩
      1 (("admin1").data) ⟨("dc=example,dc=com").data, ("admin").data⟩
      ⟨.completed 0 [], .completed 0 [], .completed 0 []⟩ ⟨false, false, []⟩
      (("t1").data) (("Zq7wX9pR2t").data) (("otherpw").data)).1,
   ((c5_credential_flow
      ⟨[⟨1, ("alice").data, ("a@b.co").data, ("Alice").data, ("Doe").data, [],
         ("ip1").data, ("ua1").data, 5⟩], 2, []⟩
      1 (("admin1").data) ⟨("dc=example,dc=com").data, ("admin").data⟩
      ⟨.completed 0 [], .completed 0 [], .completed 0 []⟩ ⟨false, false, []⟩
      (("t1").data) (("Zq7wX9pR2t").data) (("otherpw").data)).2.2
      ⟨1, ("alice").data, ("a@b.co").data, ("Alice").data, ("Doe").data, [],
       ("ip1").data, ("ua1").data, 5⟩
      (by decide) (by decide) rfl).1,
   ((c5_credential_flow
      ⟨[⟨1, ("alice").data, ("a@b.co").data, ("Alice").data, ("Doe").data, [],
         ("ip1").data, ("ua1").data, 5⟩], 2, []⟩
      1 (("admin1").data) ⟨("dc=example,dc=com").data, ("admin").data⟩
      ⟨.completed 0 [], .completed 0 [], .completed 0 []⟩ ⟨false, false, []⟩
      (("t1").data) (("Zq7wX9pR2t").data) (("otherpw").data)).2.2
      ⟨1, ("alice").data, ("a@b.co").data, ("Alice").data, ("Doe").data, [],
       ("ip1").data, ("ua1").data, 5⟩
      (by decide) (by decide) rfl).2⟩

/-! ## C6: pending uniqueness -/

lemma validate_username_nonempty (u : PyStr) (h : validate_username_strict u = true) :
    u.isEmpty = false := by
  cases u with
  | nil => rw [validate_username_strict] at h; simp at h
  | cons c cs => rfl

lemma validate_email_nonempty (e : PyStr) (h : validate_email_basic e = true) :
    e.isEmpty = false := by
  cases e with
  | nil => rw [validate_email_basic] at h; simp at h
  | cons c cs => rfl

lemma approve_preserves_distinct (s : Store) (id : Nat) (admin : PyStr)
    (lcfg : LdapConfig) (pw : PyStr) (env : LdapEnv) (cfg : EmailConfig) (ts : PyStr)
    (h : PendingDistinct s) :
    PendingDistinct (approve_request s id admin lcfg pw env cfg ts).store := by
  rw [PendingDistinct] at h ⊢
  rw [approve_request]
  cases hf : findReq s id with
  | none => exact h
  | some req =>
    by_cases hs : (create_lldap_user lcfg req.username req.email req.first_name
        req.last_name pw env).success = true
    · simp only [hs, if_true]
      exact h.sublist (List.filter_sublist _)
    · simp only [if_neg hs]
      exact h

lemma reject_preserves_distinct (s : Store) (id : Nat) (admin : PyStr)
    (reasonForm : Option PyStr) (cfg : EmailConfig) (ts : PyStr)
    (h : PendingDistinct s) :
    PendingDistinct (reject_request s id admin reasonForm cfg ts).store := by
  rw [PendingDistinct] at h ⊢
  rw [reject_request]
  cases hf : findReq s id with
  | none => exact h
  | some req => exact h.sublist (List.filter_sublist _)

lemma admission_preserves_distinct (s : Store) (cand : Candidate) (le : Bool × PyStr)
    (ae : PyStr) (cfg : EmailConfig) (ts : PyStr) (ca : Nat)
    (h : PendingDistinct s) :
    PendingDistinct (register_submit s cand le ae cfg ts ca).store := by
  rw [PendingDistinct] at h ⊢
  rw [register_submit]
  dsimp only
  split_ifs with h1 h2 h3 h4 h5 h6 <;> try exact h
  all_goals
    cases hf : s.pending.find? (fun r =>
        r.username = (pyStrip cand.username).map pyLowerChar ||
        r.email = (pyStrip cand.email).map pyLowerChar) with
    | some row =>
      dsimp only
      split_ifs <;> exact h
    | none =>
      dsimp only
      refine List.pairwise_append.mpr ⟨h, by simp, ?_⟩
      intro a ha b hb
      rw [List.mem_singleton] at hb
      subst hb
      have hn := List.find?_eq_none.mp hf a ha
      simp only [Bool.or_eq_true, decide_eq_true_eq, not_or] at hn
      exact ⟨hn.1, hn.2⟩

lemma runOps_distinct_aux (ops : List Op) : ∀ s : Store, PendingDistinct s →
    PendingDistinct (ops.foldl applyOp s) := by
  induction ops with
  | nil => intro s h; exact h
  | cons op rest ih =>
    intro s h
    rw [List.foldl_cons]
    refine ih _ ?_
    cases op with
    | admission cand le ae cfg ts ca => exact admission_preserves_distinct s cand le ae cfg ts ca h
    | approve id a lcfg pw env cfg ts =>
      exact approve_preserves_distinct s id a lcfg pw env cfg ts h
    | reject id a r cfg ts => exact reject_preserves_distinct s id a r cfg ts h

/-- C6: starting from the empty store, every sequence of admission, approve
and reject operations maintains at most one pending request per username
and per email; and an admission that passes every preceding check but
collides with a pending row on username or email performs no insert and
reports the message for whichever field the first matching row collides
on. -/
theorem c6_pending_uniqueness :
    (∀ ops : List Op, PendingDistinct (runOps ops)) ∧
    (∀ (store : Store) (cand : Candidate) (msg adminEmail : PyStr)
        (cfg : EmailConfig) (ts : PyStr) (createdAt : Nat),
      validate_username_strict ((pyStrip cand.username).map pyLowerChar) = true →
      validate_email_basic ((pyStrip cand.email).map pyLowerChar) = true →
      (pyStrip cand.first_name).isEmpty = false →
      (pyStrip cand.last_name).isEmpty = false →
      (pyStrip cand.first_name).length ≤ 100 →
      (pyStrip cand.last_name).length ≤ 100 →
      (∃ r ∈ store.pending,
        r.username = (pyStrip cand.username).map pyLowerChar ∨
        r.email = (pyStrip cand.email).map pyLowerChar) →
      (register_submit store cand (false, msg) adminEmail cfg ts createdAt).store = store ∧
      ∃ row, store.pending.find? (fun r =>
          r.username = (pyStrip cand.username).map pyLowerChar ||
          r.email = (pyStrip cand.email).map pyLowerChar) = some row ∧
        (register_submit store cand (false, msg) adminEmail cfg ts createdAt).outcome =
          AdmitOutcome.formError
            (if row.username = (pyStrip cand.username).map pyLowerChar
             then dupUsernameMsg ((pyStrip cand.username).map pyLowerChar)
             else dupEmailMsg ((pyStrip cand.email).map pyLowerChar))) := by
  constructor
  · intro ops
    exact runOps_distinct_aux ops emptyStore (by rw [PendingDistinct]; exact List.Pairwise.nil)
  · intro store cand msg adminEmail cfg ts createdAt hu he hf1 hl1 hf100 hl100 hdup
    obtain ⟨row, hrow⟩ : ∃ row, store.pending.find? (fun r =>
        r.username = (pyStrip cand.username).map pyLowerChar ||
        r.email = (pyStrip cand.email).map pyLowerChar) = some row := by
      rw [← Option.isSome_iff_exists, List.find?_isSome]
      obtain ⟨r, hr, hror⟩ := hdup
      exact ⟨r, hr, by simpa using hror⟩
    rw [register_submit]
    dsimp only
    rw [if_neg (by simp [validate_username_nonempty _ hu, validate_email_nonempty _ he,
      hf1, hl1])]
    rw [if_neg (by simp [hu]), if_neg (by simp [he])]
    rw [if_neg (by simp; omega)]
    rw [if_neg (by simp)]
    rw [hrow]
    dsimp only
    by_cases hru : row.username = (pyStrip cand.username).map pyLowerChar
    · rw [if_pos hru]
      exact ⟨rfl, row, rfl, by rw [if_pos hru]⟩
    · rw [if_neg hru]
      exact ⟨rfl, row, rfl, by rw [if_neg hru]⟩

/-- Witness for C6: a two-operation run, and a concrete duplicate
admission against a one-row store. -/
theorem c6_witness :
    PendingDistinct (runOps []) ∧
    ((register_submit
        ⟨[⟨1, ("alice").data, ("a@b.co").data, ("Alice").data, ("Doe").data, [],
           ("ip1").data, ("ua1").data, 5⟩], 2, []⟩
        ⟨("alice").data, ("x@y.co").data, ("Al").data, ("Ice").data, [],
         ("ip2").data, ("ua2").data⟩
        (false, []) [] ⟨false, false, []⟩ (("t2").data) 7).store =
      ⟨[⟨1, ("alice").data, ("a@b.co").data, ("Alice").data, ("Doe").data, [],
         ("ip1").data, ("ua1").data, 5⟩], 2, []⟩ ∧
      ∃ row, (⟨[⟨1, ("alice").data, ("a@b.co").data, ("Alice").data, ("Doe").data, [],
           ("ip1").data, ("ua1").data, 5⟩], 2, []⟩ : Store).pending.find? (fun r =>
          r.username = (pyStrip (("alice").data)).map pyLowerChar ||
          r.email = (pyStrip (("x@y.co").data)).map pyLowerChar) = some row ∧
        (register_submit
          ⟨[⟨1, ("alice").data, ("a@b.co").data, ("Alice").data, ("Doe").data, [],
             ("ip1").data, ("ua1").data, 5⟩], 2, []⟩
          ⟨("alice").data, ("x@y.co").data, ("Al").data, ("Ice").data, [],
           ("ip2").data, ("ua2").data⟩
          (false, []) [] ⟨false, false, []⟩ (("t2").data) 7).outcome =
          AdmitOutcome.formError
            (if row.username = (pyStrip (("alice").data)).map pyLowerChar
             then dupUsernameMsg ((pyStrip (("alice").data)).map pyLowerChar)
             else dupEmailMsg ((pyStrip (("x@y.co").data)).map pyLowerChar))) :=
  ⟨c6_pending_uniqueness.1 [],
   c6_pending_uniqueness.2
     ⟨[⟨1, ("alice").data, ("a@b.co").data, ("Alice").data, ("Doe").data, [],
        ("ip1").data, ("ua1").data, 5⟩], 2, []⟩
     ⟨("alice").data, ("x@y.co").data, ("Al").data, ("Ice").data, [],
      ("ip2").data, ("ua2").data⟩
     [] [] ⟨false, false, []⟩ (("t2").data) 7
     (by decide) (by decide) (by decide) (by decide) (by decide) (by decide)
     ⟨⟨1, ("alice").data, ("a@b.co").data, ("Alice").data, ("Doe").data, [],
       ("ip1").data, ("ua1").data, 5⟩, by simp, Or.inl (by decide)⟩⟩

/-! ## C2: escaping and the DN grammar round trip -/

lemma escOk_of_special {c : Char} (h : isSpecial c = true) : escOk c = true := by
  simp only [isSpecial, Bool.or_eq_true, decide_eq_true_eq] at h
  simp only [escOk, Bool.or_eq_true, decide_eq_true_eq]
  tauto

lemma special_of_rawForbidden {c : Char} (h : rawForbidden c = true) : isSpecial c = true := by
  simp only [rawForbidden, Bool.or_eq_true, decide_eq_true_eq] at h
  simp only [isSpecial, Bool.or_eq_true, decide_eq_true_eq]
  tauto

lemma dnTokens_escChar_append (c : Char) (rest : PyStr) :
    dnTokens (escChar c ++ rest) =
      (dnTokens rest).map (fun ts => (isSpecial c, c) :: ts) := by
  by_cases h : isSpecial c = true
  · rw [escChar_special h, h]
    show dnTokens (bslash :: c :: rest) = _
    simp [dnTokens, escOk_of_special h]
  · have h' : isSpecial c = false := by simpa using h
    rw [escChar_raw h', h']
    have h1 : ¬(c = bslash) := by
      intro hh
      subst hh
      exact absurd h' (by decide)
    have h2 : rawForbidden c = false := by
      cases hrf : rawForbidden c
      · rfl
      · exact absurd (special_of_rawForbidden hrf) (by simp [h'])
    show dnTokens (c :: rest) = _
    rw [dnTokens.eq_def]
    simp [h1, h2]

lemma dnTokens_escAll_append (l rest : PyStr) :
    dnTokens (escAll l ++ rest) = (dnTokens rest).map (fun ts => tokOf l ++ ts) := by
  induction l with
  | nil =>
    show dnTokens rest = _
    cases dnTokens rest <;> simp [tokOf]
  | cons c cs ih =>
    have hs : escAll (c :: cs) ++ rest = escChar c ++ (escAll cs ++ rest) := by
      rw [show escAll (c :: cs) = escChar c ++ escAll cs from rfl, List.append_assoc]
    rw [hs, dnTokens_escChar_append, ih]
    cases dnTokens rest <;> simp [tokOf]

lemma dnTokens_escAll (l : PyStr) : dnTokens (escAll l) = some (tokOf l) := by
  have h := dnTokens_escAll_append l []
  rw [List.append_nil] at h
  rw [h]
  show Option.map _ (some []) = _
  simp

lemma dnTokens_escaped_space_cons (X : PyStr) :
    dnTokens (bslash :: ' ' :: X) = (dnTokens X).map (fun ts => (true, ' ') :: ts) := by
  simp [dnTokens, escOk]

lemma tokOf_map_snd (l : PyStr) : (tokOf l).map Prod.snd = l := by
  rw [tokOf, List.map_map]
  have hcomp : (Prod.snd ∘ fun c : Char => (isSpecial c, c)) = id := rfl
  rw [hcomp, List.map_id]

lemma tokOf_all_escaped (l : PyStr) :
    (tokOf l).all (fun p => !isSpecial p.2 || p.1) = true := by
  rw [List.all_eq_true]
  intro p hp
  rcases List.mem_map.mp hp with ⟨c, _, hc⟩
  subst hc
  cases h : isSpecial c <;> simp [h]

lemma tokOf_head_prop (l : PyStr) (hsp : l.head? ≠ some ' ') :
    ∀ p, (tokOf l).head? = some p → (p.1 = true ∨ (p.2 ≠ ' ' ∧ p.2 ≠ '#')) := by
  intro p hp
  cases l with
  | nil => simp [tokOf] at hp
  | cons c0 cs =>
    simp only [tokOf, List.map_cons, List.head?_cons, Option.some.injEq] at hp
    subst hp
    dsimp only
    by_cases h : isSpecial c0 = true
    · exact Or.inl h
    · refine Or.inr ⟨?_, ?_⟩
      · intro hh
        exact hsp (by rw [List.head?_cons, hh])
      · intro hh
        rw [hh] at h
        exact absurd (by decide : isSpecial '#' = true) h

lemma tokOf_last_prop (l : PyStr) (hsp : l.getLast? ≠ some ' ') :
    ∀ p, (tokOf l).getLast? = some p → (p.1 = true ∨ p.2 ≠ ' ') := by
  intro p hp
  rw [tokOf, List.getLast?_map] at hp
  cases hl : l.getLast? with
  | none => rw [hl] at hp; simp at hp
  | some c =>
    rw [hl] at hp
    simp only [Option.map_some', Option.some.injEq] at hp
    subst hp
    dsimp only
    by_cases h : isSpecial c = true
    · exact Or.inl h
    · refine Or.inr ?_
      intro hh
      exact hsp (by rw [hl, hh])

lemma dnParse_some_of_tokens (v : PyStr) (ts : List (Bool × Char))
    (hts : dnTokens v = some ts)
    (hhead : ∀ p, ts.head? = some p → (p.1 = true ∨ (p.2 ≠ ' ' ∧ p.2 ≠ '#')))
    (hlast : ∀ p, ts.getLast? = some p → (p.1 = true ∨ p.2 ≠ ' ')) :
    dnParse v = some (ts.map Prod.snd) := by
  rw [dnParse, hts]
  cases ts with
  | nil => rfl
  | cons t0 tr =>
    have h0 := hhead t0 (by rw [List.head?_cons])
    have hlv : (t0 :: tr).getLast? = some ((t0 :: tr).getLast (by simp)) :=
      List.getLast?_eq_getLast _ _
    have hl := hlast _ hlv
    dsimp only
    have hcond : ¬((t0.1 = false ∧ (t0.2 = ' ' ∨ t0.2 = '#')) ∨
        (((t0 :: tr).getLastD t0).1 = false ∧ ((t0 :: tr).getLastD t0).2 = ' ')) := by
      rw [List.getLastD_eq_getLast?, hlv]
      simp only [Option.getD_some]
      rintro (⟨hf, hsp⟩ | ⟨hf, hsp⟩)
      · rcases h0 with h | h
        · rw [h] at hf; exact absurd hf (by decide)
        · rcases hsp with hsp | hsp
          · exact h.1 hsp
          · exact h.2 hsp
      · rcases hl with h | h
        · rw [h] at hf; exact absurd hf (by decide)
        · exact h hsp
    rw [if_neg hcond]

lemma escAll_cons_ne_nil (c : Char) (cs : PyStr) : escAll (c :: cs) ≠ [] := by
  rw [show escAll (c :: cs) = escChar c ++ escAll cs from rfl, escChar]
  split_ifs <;> simp

lemma tokOf_escaped_only_special (l : PyStr) :
    ∀ p ∈ tokOf l, p.1 = true → (isSpecial p.2 = true ∨ p.2 = ' ') := by
  intro p hp h
  rcases List.mem_map.mp hp with ⟨c, _, hc⟩
  subst hc
  exact Or.inl h

lemma escape_dn_tokens (l : PyStr) (hne : l ≠ [' ']) :
    ∃ ts, dnTokens (escape_ldap_dn l) = some ts ∧
      ts.map Prod.snd = l ∧
      ts.all (fun p => !isSpecial p.2 || p.1) = true ∧
      (∀ p, ts.head? = some p → (p.1 = true ∨ (p.2 ≠ ' ' ∧ p.2 ≠ '#'))) ∧
      (∀ p, ts.getLast? = some p → (p.1 = true ∨ p.2 ≠ ' ')) ∧
      (∀ p ∈ ts, p.1 = true → (isSpecial p.2 = true ∨ p.2 = ' ')) := by
  rw [escape_ldap_dn, escSeq_eq_escAll]
  by_cases h1 : l.head? = some ' '
  · -- l begins with a space
    obtain ⟨m, rfl⟩ : ∃ m, l = ' ' :: m := by
      cases l with
      | nil => simp at h1
      | cons c cs =>
        rw [List.head?_cons, Option.some.injEq] at h1
        exact ⟨cs, by rw [h1]⟩
    obtain ⟨c1, ms, rfl⟩ : ∃ c1 ms, m = c1 :: ms := by
      cases m with
      | nil => exact absurd rfl hne
      | cons c1 ms => exact ⟨c1, ms, rfl⟩
    have hesc : escAll (' ' :: c1 :: ms) = ' ' :: escAll (c1 :: ms) := by
      rw [show escAll (' ' :: c1 :: ms) = escChar ' ' ++ escAll (c1 :: ms) from rfl,
        escChar_raw (by decide)]
      rfl
    have hcond1 : (escAll (' ' :: c1 :: ms)).head? = some ' ' := by
      rw [hesc, List.head?_cons]
    rw [if_pos hcond1]
    by_cases h2 : (' ' :: c1 :: ms : PyStr).getLast? = some ' '
    · -- trailing space as well
      obtain ⟨k, hk⟩ : ∃ k, (c1 :: ms : PyStr) = k ++ [' '] := by
        have h2' : (c1 :: ms : PyStr).getLast? = some ' ' := by
          rwa [List.getLast?_cons_cons] at h2
        rcases List.eq_nil_or_concat (c1 :: ms : PyStr) with hc | ⟨xs, x, hc⟩
        · simp at hc
        · rw [hc, List.concat_eq_append, List.getLast?_concat,
            Option.some.injEq] at h2'
          exact ⟨xs, by rw [hc, List.concat_eq_append, h2']⟩
      have hkl : escAll (' ' :: c1 :: ms) = (' ' :: escAll k) ++ [' '] := by
        rw [hesc, hk, escAll_append, show escAll [' '] = [' '] from rfl]
        simp
      have hshape : (bslash :: escAll (' ' :: c1 :: ms) : PyStr) =
          ((bslash :: ' ' :: escAll k) ++ [' ']) := by
        rw [hkl]
        simp
      have hcond2 : (bslash :: escAll (' ' :: c1 :: ms) : PyStr).getLast? = some ' ' := by
        rw [hshape, List.getLast?_concat]
      rw [if_pos hcond2, hshape, List.dropLast_concat]
      have hshape2 : ((bslash :: ' ' :: escAll k : PyStr) ++ [bslash, ' ']) =
          bslash :: ' ' :: (escAll k ++ [bslash, ' ']) := by simp
      rw [hshape2, dnTokens_escaped_space_cons, dnTokens_escAll_append,
        show dnTokens [bslash, ' '] = some [(true, ' ')] from by decide]
      refine ⟨(true, ' ') :: (tokOf k ++ [(true, ' ')]), by simp, ?_, ?_, ?_, ?_, ?_⟩
      · simp only [List.map_cons, List.map_append]
        rw [tokOf_map_snd, hk]
        simp
      · simp only [List.all_cons, List.all_append]
        rw [tokOf_all_escaped]
        simp
      · intro p hp
        rw [List.head?_cons, Option.some.injEq] at hp
        subst hp
        exact Or.inl rfl
      · intro p hp
        rw [show ((true, ' ') :: (tokOf k ++ [(true, ' ')])) =
            (((true, ' ') :: tokOf k) ++ [(true, ' ')]) from by simp,
          List.getLast?_concat, Option.some.injEq] at hp
        subst hp
        exact Or.inl rfl
      · intro p hp h
        rcases List.mem_cons.mp hp with hh | hh
        · subst hh
          exact Or.inr rfl
        · rcases List.mem_append.mp hh with hh2 | hh2
          · exact tokOf_escaped_only_special k p hh2 h
          · rw [List.mem_singleton] at hh2
            subst hh2
            exact Or.inr rfl
    · -- only the leading space
      obtain ⟨e1, es, hE⟩ : ∃ e1 es, escAll (c1 :: ms) = e1 :: es := by
        cases hE : escAll (c1 :: ms) with
        | nil => exact absurd hE (escAll_cons_ne_nil c1 ms)
        | cons e1 es => exact ⟨e1, es, rfl⟩
      have h2' : (c1 :: ms : PyStr).getLast? ≠ some ' ' := by
        intro hh
        exact h2 (by rwa [List.getLast?_cons_cons])
      have hcond2 : ¬((bslash :: escAll (' ' :: c1 :: ms) : PyStr).getLast? = some ' ') := by
        rw [hesc, hE, List.getLast?_cons_cons, List.getLast?_cons_cons, ← hE]
        intro hh
        exact h2' ((escAll_getLast_space (c1 :: ms)).mp hh)
      rw [if_neg hcond2, hesc, dnTokens_escaped_space_cons, dnTokens_escAll]
      refine ⟨(true, ' ') :: tokOf (c1 :: ms), by simp, ?_, ?_, ?_, ?_, ?_⟩
      · simp only [List.map_cons]
        rw [tokOf_map_snd]
      · simp only [List.all_cons]
        rw [tokOf_all_escaped]
        simp
      · intro p hp
        rw [List.head?_cons, Option.some.injEq] at hp
        subst hp
        exact Or.inl rfl
      · intro p hp
        rw [show ((true, ' ') :: tokOf (c1 :: ms)).getLast? = (tokOf (c1 :: ms)).getLast?
            from by rw [tokOf, List.map_cons, List.getLast?_cons_cons]] at hp
        exact tokOf_last_prop (c1 :: ms) h2' p hp
      · intro p hp h
        rcases List.mem_cons.mp hp with hh | hh
        · subst hh
          exact Or.inr rfl
        · exact tokOf_escaped_only_special (c1 :: ms) p hh h
  · -- no leading space
    have hcond1 : ¬((escAll l).head? = some ' ') :=
      fun hh => h1 ((escAll_head_space l).mp hh)
    rw [if_neg hcond1]
    by_cases h2 : l.getLast? = some ' '
    · -- trailing space only
      obtain ⟨m, rfl⟩ : ∃ m, l = m ++ [' '] := by
        rcases List.eq_nil_or_concat l with hc | ⟨xs, x, hc⟩
        · rw [hc] at h2; simp at h2
        · rw [hc, List.concat_eq_append, List.getLast?_concat,
            Option.some.injEq] at h2
          exact ⟨xs, by rw [hc, List.concat_eq_append, h2]⟩
      obtain ⟨c1, ms, rfl⟩ : ∃ c1 ms, m = c1 :: ms := by
        cases m with
        | nil => simp at hne
        | cons c1 ms => exact ⟨c1, ms, rfl⟩
      have he1 : escAll ((c1 :: ms) ++ [' ']) = escAll (c1 :: ms) ++ [' '] := by
        rw [escAll_append]
        rfl
      rw [he1]
      have hcond2 : (escAll (c1 :: ms) ++ [' '] : PyStr).getLast? = some ' ' :=
        List.getLast?_concat _
      rw [if_pos hcond2, List.dropLast_concat, dnTokens_escAll_append,
        show dnTokens [bslash, ' '] = some [(true, ' ')] from by decide]
      refine ⟨tokOf (c1 :: ms) ++ [(true, ' ')], by simp, ?_, ?_, ?_, ?_, ?_⟩
      · simp only [List.map_append]
        rw [tokOf_map_snd]
        simp
      · simp only [List.all_append]
        rw [tokOf_all_escaped]
        simp
      · intro p hp
        rw [show (tokOf (c1 :: ms) ++ [(true, ' ')]).head? = some (isSpecial c1, c1)
            from by rw [tokOf, List.map_cons, List.cons_append, List.head?_cons],
          Option.some.injEq] at hp
        subst hp
        dsimp only
        by_cases hsc : isSpecial c1 = true
        · exact Or.inl hsc
        · refine Or.inr ⟨?_, ?_⟩
          · intro hh
            apply h1
            rw [List.cons_append, List.head?_cons, hh]
          · intro hh
            rw [hh] at hsc
            exact absurd (by decide : isSpecial '#' = true) hsc
      · intro p hp
        rw [List.getLast?_concat, Option.some.injEq] at hp
        subst hp
        exact Or.inl rfl
      · intro p hp h
        rcases List.mem_append.mp hp with hh | hh
        · exact tokOf_escaped_only_special (c1 :: ms) p hh h
        · rw [List.mem_singleton] at hh
          subst hh
          exact Or.inr rfl
    · -- clean on both ends
      have hcond2 : ¬((escAll l).getLast? = some ' ') :=
        fun hh => h2 ((escAll_getLast_space l).mp hh)
      rw [if_neg hcond2, dnTokens_escAll]
      exact ⟨tokOf l, rfl, tokOf_map_snd l, tokOf_all_escaped l,
        tokOf_head_prop l h1, tokOf_last_prop l h2, tokOf_escaped_only_special l⟩

/-- C2 counterexample: on the single-space string the escape routine
mangles the leading-space escape — it produces backslash, backslash,
space, which the DN grammar rejects (an escaped backslash followed by an
unescaped trailing space) — so the round trip fails. -/
theorem c2_counterexample :
    escape_ldap_dn [' '] = [bslash, bslash, ' '] ∧
    dnParse (escape_ldap_dn [' ']) = none := by decide

/-- C2 amended: for every input except the single-space string,
`escape_ldap_dn` escapes every occurrence of each metacharacter in
`, # + < > ; " = \` together with any leading or trailing space, and
parsing the escaped form back under the directory's DN value grammar
returns exactly the original string. On the single-space string the
escape output is rejected by the grammar (see the counterexample). -/
theorem c2_escape_roundtrip (l : PyStr) (hne : l ≠ [' ']) :
    allSpecialsEscaped (escape_ldap_dn l) = true ∧
    dnParse (escape_ldap_dn l) = some l := by
  obtain ⟨ts, hts, hsnd, hall, hhead, hlast, _⟩ := escape_dn_tokens l hne
  constructor
  · rw [allSpecialsEscaped, hts]
    exact hall
  · rw [dnParse_some_of_tokens _ ts hts hhead hlast, hsnd]

/-- Witness for C2 (amended) at a string holding every metacharacter and
a leading and trailing space. -/
theorem c2_witness :
    allSpecialsEscaped (escape_ldap_dn
      [' ', 'a', ',', '#', '+', '<', '>', ';', quoteChar, '=', bslash, 'b', ' ']) = true ∧
    dnParse (escape_ldap_dn
      [' ', 'a', ',', '#', '+', '<', '>', ';', quoteChar, '=', bslash, 'b', ' ']) =
      some [' ', 'a', ',', '#', '+', '<', '>', ';', quoteChar, '=', bslash, 'b', ' '] :=
  c2_escape_roundtrip
    [' ', 'a', ',', '#', '+', '<', '>', ';', quoteChar, '=', bslash, 'b', ' ']
    (by decide)

/-! ## C9: the filter metacharacters pass through every input -/

lemma self_eq_dropLast_concat (l : PyStr) (a : Char) (h : l.getLast? = some a) :
    l.dropLast ++ [a] = l := by
  have hne : l ≠ [] := by
    intro hh
    rw [hh] at h
    simp at h
  have h2 := List.getLast?_eq_getLast l hne
  rw [h2, Option.some.injEq] at h
  rw [← h]
  exact List.dropLast_append_getLast hne

lemma filter_meta_escChar (c : Char) :
    (escChar c).filter isFilterMeta = [c].filter isFilterMeta := by
  rw [escChar]
  split_ifs with h
  · rw [List.filter_cons]
    simp [show isFilterMeta bslash = false from by decide]
  · rfl

lemma filter_meta_escAll (l : PyStr) :
    (escAll l).filter isFilterMeta = l.filter isFilterMeta := by
  induction l with
  | nil => rfl
  | cons c cs ih =>
    rw [show escAll (c :: cs) = escChar c ++ escAll cs from rfl, List.filter_append,
      filter_meta_escChar, ih]
    cases h : isFilterMeta c <;> simp [List.filter_cons, h]

lemma filter_boundary_eq (v : PyStr) (h : v.getLast? = some ' ') :
    (v.dropLast ++ [bslash, ' ']).filter isFilterMeta = v.filter isFilterMeta := by
  conv_rhs => rw [← self_eq_dropLast_concat v ' ' h]
  rw [List.filter_append, List.filter_append]
  simp [List.filter_cons, show isFilterMeta bslash = false from by decide,
    show isFilterMeta ' ' = false from by decide]

lemma filter_meta_escape (l : PyStr) :
    (escape_ldap_dn l).filter isFilterMeta = l.filter isFilterMeta := by
  have hb : isFilterMeta bslash = false := by decide
  rw [escape_ldap_dn, escSeq_eq_escAll]
  by_cases h1 : (escAll l).head? = some ' '
  · rw [if_pos h1]
    by_cases h2 : (bslash :: escAll l : PyStr).getLast? = some ' '
    · rw [if_pos h2, filter_boundary_eq _ h2, List.filter_cons]
      simp [hb, filter_meta_escAll]
    · rw [if_neg h2, List.filter_cons]
      simp [hb, filter_meta_escAll]
  · rw [if_neg h1]
    by_cases h2 : (escAll l).getLast? = some ' '
    · rw [if_pos h2, filter_boundary_eq _ h2, filter_meta_escAll]
    · rw [if_neg h2, filter_meta_escAll]

/-- C9: for every input string, `escape_ldap_dn` leaves the
search-filter metacharacters `(`, `)` and `*` unchanged: the
subsequence of filter metacharacters in the escaped output is exactly
the input's, such a character is never turned into an escape pair
(whenever the escaped output tokenises under the DN grammar, every
filter-metacharacter token is raw), a string made of filter
metacharacters is returned verbatim and flows verbatim into the
`(uid=...)` and `(mail=...)` filters that `check_ldap_user_exists`
interpolates the escaped values into — in particular the lone wildcard
maps to `(uid=*)` and `(mail=*)`. -/
theorem c9_filter_metachars_pass_through (l : PyStr) :
    ((escape_ldap_dn l).filter isFilterMeta = l.filter isFilterMeta) ∧
    (∀ ts, dnTokens (escape_ldap_dn l) = some ts →
      ∀ p ∈ ts, isFilterMeta p.2 = true → p.1 = false) ∧
    ((∀ c ∈ l, isFilterMeta c = true) →
      escape_ldap_dn l = l ∧
      uidSearchFilter l = ("(uid=").data ++ l ++ [')'] ∧
      mailSearchFilter l = ("(mail=").data ++ l ++ [')']) ∧
    escape_ldap_dn ['*'] = ['*'] ∧
    uidSearchFilter ['*'] = ("(uid=*)").data ∧
    mailSearchFilter ['*'] = ("(mail=*)").data := by
  refine ⟨filter_meta_escape l, ?_, escape_eq_self_of_filter_meta l,
    by decide, by decide, by decide⟩
  intro ts hts p hp hm
  by_cases hne : l = [' ']
  · subst hne
    rw [show dnTokens (escape_ldap_dn [' ']) = some [(true, bslash), (false, ' ')]
      from by decide, Option.some.injEq] at hts
    subst hts
    rcases List.mem_cons.mp hp with hh | hh
    · rw [hh] at hm
      exact absurd hm (by decide)
    · rw [List.mem_singleton] at hh
      rw [hh] at hm
      exact absurd hm (by decide)
  · obtain ⟨ts', hts', _, _, _, _, honly⟩ := escape_dn_tokens l hne
    rw [hts'] at hts
    rw [Option.some.injEq] at hts
    subst hts
    cases hp1 : p.1 with
    | false => rfl
    | true =>
      rcases honly p hp hp1 with h | h
      · simp only [isFilterMeta, Bool.or_eq_true, decide_eq_true_eq] at hm
        rcases hm with (hm | hm) | hm <;> rw [hm] at h <;>
          exact absurd h (by decide)
      · rw [h] at hm
        exact absurd hm (by decide)

/-- Witness for C9 at the mixed string `a*b` (the wildcard embedded in
ordinary characters) and the pure-metacharacter string `(*)`. -/
theorem c9_witness :
    ((escape_ldap_dn ['a', '*', 'b']).filter isFilterMeta =
      (['a', '*', 'b'] : PyStr).filter isFilterMeta) ∧
    (∀ p ∈ [(false, 'a'), (false, '*'), (false, 'b')],
      isFilterMeta p.2 = true → p.1 = false) ∧
    escape_ldap_dn ['(', '*', ')'] = ['(', '*', ')'] :=
  ⟨(c9_filter_metachars_pass_through ['a', '*', 'b']).1,
   (c9_filter_metachars_pass_through ['a', '*', 'b']).2.1
     [(false, 'a'), (false, '*'), (false, 'b')] (by decide),
   ((c9_filter_metachars_pass_through ['(', '*', ')']).2.2.1 (by decide)).1⟩

end Reg
